import Mathlib

/-!
# Verification of the p2p-bitcoin-handshake wire codec and handshake state machine

A shallow embedding, in Lean 4, of the Rust sources of the
`p2p-bitcoin-handshake` repository:

* `net/src/wire_protocol/raw_message.rs` — frame codec (`RawMessage`),
* `net/src/wire_protocol/node.rs` — chains, node descriptors, service sets,
* `net/src/wire_protocol/messages.rs` — protocol messages,
* `net/src/wire_protocol/handshake.rs` — handshake conversation handler,
* `net/src/wire_protocol/connection.rs` — connection driver loop,
* `src/peer/buffer.rs` — `ByteBufferParser`, `ByteBufferComposer`, `IOBuffer`
  (the same buffer module the `net` crate uses).

Bytes are modelled as `Nat` values (callers supply values `< 256`), byte
strings as `List Nat`.  Machine integers are modelled as `Nat`/`Int` with
explicit reductions modulo `2 ^ w`.  Rust's in-place mutation is modelled by
explicit state passing, and fallible Rust functions return `Except String _`.
The external effects of the connection driver (socket reads/writes, clock,
random nonce) are modelled as explicit inputs: the scripted list of reads, a
timestamp argument and a nonce argument.
-/

/-! ## Little/big endian byte encodings (`u32::to_le_bytes` etc.) -/

/-- Little-endian encoding of `n` into `w` bytes (`u32::to_le_bytes`,
`u64::to_le_bytes` with `w = 4, 8`). -/
def natToLe : Nat → Nat → List Nat
  | 0, _ => []
  | w + 1, n => n % 256 :: natToLe w (n / 256)

/-- `uN::from_le_bytes`: recombine little-endian bytes into a `Nat`. -/
def leToNat : List Nat → Nat
  | [] => 0
  | b :: bs => b + 256 * leToNat bs

/-- Big-endian encoding of `n` into `w` bytes (`u16::to_be_bytes`,
and the 8-byte bit-length field of SHA-256 padding). -/
def natToBe : Nat → Nat → List Nat
  | 0, _ => []
  | w + 1, n => natToBe w (n / 256) ++ [n % 256]

/-- `uN::from_be_bytes`: recombine big-endian bytes into a `Nat`. -/
def beToNat (bs : List Nat) : Nat :=
  bs.foldl (fun acc b => acc * 256 + b) 0

/-- Two's-complement reading of an unsigned `w`-byte value as a signed
integer (`i32::from_le_bytes` = `intOfNat 4 ∘ leToNat`). -/
def intOfNat (w : Nat) (n : Nat) : Int :=
  if n < 2 ^ (8 * w - 1) then (n : Int) else (n : Int) - 2 ^ (8 * w)

/-- Little-endian encoding of a signed integer into `w` bytes
(`i32::to_le_bytes`, `i64::to_le_bytes`). -/
def intToLe (w : Nat) (i : Int) : List Nat :=
  natToLe w (i % (2 ^ (8 * w))).toNat

/-! ## SHA-256 (the `sha2` crate's `Sha256`, as used by `fn sha256`)

An executable reference implementation of FIPS 180-4 SHA-256 over byte
lists; all 32-bit words are `Nat` values reduced modulo `2 ^ 32`. -/

namespace Sha256

/-- 32-bit right rotation. -/
def ror32 (x n : Nat) : Nat :=
  ((x >>> n) ||| ((x <<< (32 - n)) % 4294967296)) % 4294967296

/-- The 64 SHA-256 round constants. -/
def K : List Nat :=
  [1116352408, 1899447441, 3049323471, 3921009573, 961987163,
   1508970993, 2453635748, 2870763221, 3624381080, 310598401,
   607225278, 1426881987, 1925078388, 2162078206, 2614888103,
   3248222580, 3835390401, 4022224774, 264347078, 604807628,
   770255983, 1249150122, 1555081692, 1996064986, 2554220882,
   2821834349, 2952996808, 3210313671, 3336571891, 3584528711,
   113926993, 338241895, 666307205, 773529912, 1294757372,
   1396182291, 1695183700, 1986661051, 2177026350, 2456956037,
   2730485921, 2820302411, 3259730800, 3345764771, 3516065817,
   3600352804, 4094571909, 275423344, 430227734, 506948616,
   659060556, 883997877, 958139571, 1322822218, 1537002063,
   1747873779, 1955562222, 2024104815, 2227730452, 2361852424,
   2428436474, 2756734187, 3204031479, 3329325298]

/-- The initial hash state. -/
def H0 : List Nat :=
  [1779033703, 3144134277, 1013904242, 2773480762,
   1359893119, 2600822924, 528734635, 1541459225]

/-- Pad a byte message: `0x80`, zeros to 56 mod 64, 8-byte big-endian bit
length. -/
def pad (msg : List Nat) : List Nat :=
  let L := msg.length
  let zeros := (119 - L % 64) % 64
  msg ++ [0x80] ++ List.replicate zeros 0 ++ natToBe 8 (L * 8)

/-- Split a list into chunks of `n` elements; structural recursion on a fuel
bound so that the kernel can evaluate it. -/
def chunkByAux (n : Nat) : Nat → List Nat → List (List Nat)
  | 0, _ => []
  | fuel + 1, l =>
    if l = [] ∨ n = 0 then []
    else l.take n :: chunkByAux n fuel (l.drop n)

/-- Split a list into chunks of `n` elements (`n > 0`). -/
def chunkBy (n : Nat) (l : List Nat) : List (List Nat) :=
  chunkByAux n l.length l

/-- Big-endian 4-byte words of one 64-byte block. -/
def blockWords (block : List Nat) : List Nat :=
  (chunkBy 4 block).map beToNat

/-- One step of the message-schedule extension: append word `w.length`. -/
def schedStep (w : List Nat) : List Nat :=
  let i := w.length
  let x15 := w.getD (i - 15) 0
  let x2 := w.getD (i - 2) 0
  let s0 := (ror32 x15 7) ^^^ (ror32 x15 18) ^^^ (x15 >>> 3)
  let s1 := (ror32 x2 17) ^^^ (ror32 x2 19) ^^^ (x2 >>> 10)
  w ++ [(w.getD (i - 16) 0 + s0 + w.getD (i - 7) 0 + s1) % 4294967296]

/-- Extend the 16 block words to the 64-word message schedule. -/
def schedule (w : List Nat) : List Nat :=
  schedStep^[48] w

/-- One round of the compression function on an 8-word state
`[a, b, c, d, e, f, g, h]`. -/
def round (st : List Nat) (kw : Nat × Nat) : List Nat :=
  let a := st.getD 0 0
  let b := st.getD 1 0
  let c := st.getD 2 0
  let d := st.getD 3 0
  let e := st.getD 4 0
  let f := st.getD 5 0
  let g := st.getD 6 0
  let h := st.getD 7 0
  let S1 := (ror32 e 6) ^^^ (ror32 e 11) ^^^ (ror32 e 25)
  let ch := (e &&& f) ^^^ ((4294967295 - e) &&& g)
  let t1 := (h + S1 + ch + kw.1 + kw.2) % 4294967296
  let S0 := (ror32 a 2) ^^^ (ror32 a 13) ^^^ (ror32 a 22)
  let mj := (a &&& b) ^^^ (a &&& c) ^^^ (b &&& c)
  let t2 := (S0 + mj) % 4294967296
  [(t1 + t2) % 4294967296, a, b, c, (d + t1) % 4294967296, e, f, g]

/-- Compress one 64-byte block into the hash state. -/
def compress (st : List Nat) (block : List Nat) : List Nat :=
  let w := schedule (blockWords block)
  let out := (K.zip w).foldl round st
  (st.zip out).map (fun p => (p.1 + p.2) % 4294967296)

end Sha256

/-- `fn sha256(input: &[u8]) -> [u8; 32]` — double-invoked by the codec for
the frame checksum.  The repository delegates to the `sha2` crate; this is
the FIPS 180-4 algorithm that crate implements. -/
def sha256 (input : List Nat) : List Nat :=
  ((Sha256.chunkBy 64 (Sha256.pad input)).foldl Sha256.compress Sha256.H0).flatMap
    (natToBe 4)

/-! ## Chains and node identity (`net/src/wire_protocol/node.rs`) -/

/-- `enum Chain { Regtest, Testnet3 }`. -/
inductive Chain
  | Regtest
  | Testnet3
deriving DecidableEq, Repr

/-- `Chain::magic_value`. -/
def Chain.magic_value : Chain → Nat
  | .Regtest => 0xDAB5BFFA
  | .Testnet3 => 0x0709110B

/-- The order `Chain::iter()` (strum `EnumIter`) visits the variants in. -/
def chainIterOrder : List Chain := [.Regtest, .Testnet3]

/-- Debug formatting of a chain (Rust `{:?}`), used in error messages. -/
def Chain.debugStr : Chain → String
  | .Regtest => "Regtest"
  | .Testnet3 => "Testnet3"

/-- `impl TryFrom<u32> for Chain`: first variant in iteration order whose
magic value matches, else an error. -/
def Chain.try_from (magic_value : Nat) : Except String Chain :=
  match chainIterOrder.find? (fun c => c.magic_value == magic_value) with
  | some c => .ok c
  | none => .error ("No chain known having magic value " ++ toString magic_value)

/-- `enum NodeService { NodeNetwork = 0x1 }` (bit mask value). -/
inductive NodeService
  | NodeNetwork
deriving DecidableEq, Repr

/-- `NodeService::as_u64` (the discriminant). -/
def NodeService.as_u64 : NodeService → Nat
  | .NodeNetwork => 0x1

/-- The order `NodeService::iter()` visits the variants in. -/
def nodeServiceIterOrder : List NodeService := [.NodeNetwork]

/-- `struct NodeServiceSet(pub Vec<NodeService>)`. -/
structure NodeServiceSet where
  services : List NodeService
deriving DecidableEq, Repr

/-- `NodeServiceSet::as_bitmask`: starts from `0x0` and combines each flag
with `bitand` (the source really uses `&`, not `|`). -/
def NodeServiceSet.as_bitmask (s : NodeServiceSet) : Nat :=
  s.services.foldl (fun bitset bit => bitset &&& bit.as_u64) 0x0

/-- `NodeServiceSet::from_bitmask`: collect, in iteration order, every flag
whose bit is set in the mask. -/
def NodeServiceSet.from_bitmask (mask : Nat) : NodeServiceSet :=
  ⟨nodeServiceIterOrder.filter (fun e => mask &&& e.as_u64 != 0)⟩

/-- `struct NodeDesc`. -/
structure NodeDesc where
  chain : Chain
  protocol_version : Int
  services : NodeServiceSet
  sub_ver : String
  start_height : Int
deriving DecidableEq, Repr

/-! ## Byte buffers (`src/peer/buffer.rs`) -/

/-- A socket address as it appears on the wire: a 16-byte IPv6 (or
IPv4-mapped) address and a port (`std::net::SocketAddr`; Rust's `IpAddr` is
kept as its 16 octets). -/
structure SockAddr where
  ip : List Nat
  port : Nat
deriving DecidableEq, Repr

/-- `struct ByteBufferParser { buffer, pos }` — positional cursor over an
immutable byte slice. -/
structure ByteBufferParser where
  buffer : List Nat
  pos : Nat
deriving DecidableEq, Repr

namespace ByteBufferParser

/-- `ByteBufferParser::new`. -/
def new (buffer : List Nat) : ByteBufferParser := ⟨buffer, 0⟩

/-- `ByteBufferParser::remaining`. -/
def remaining (p : ByteBufferParser) : Nat := p.buffer.length - p.pos

/-- `eof_check`: fails when fewer than `want_bytes` bytes remain. -/
def eof_check (p : ByteBufferParser) (want_bytes : Nat) : Except String Unit :=
  if p.remaining < want_bytes then
    .error ("can not read " ++ toString want_bytes ++ " bytes from buffer of size "
      ++ toString p.buffer.length)
  else .ok ()

/-- `ByteBufferParser::skip_bytes` (returns the advanced parser in place of
Rust's `&mut self`). -/
def skip_bytes (p : ByteBufferParser) (count : Nat) :
    Except String ByteBufferParser := do
  let _ ← p.eof_check count
  pure { p with pos := p.pos + count }

/-- `ByteBufferParser::read`: the slice `buffer[pos .. pos + size]` plus the
advanced parser. -/
def read (p : ByteBufferParser) (size : Nat) :
    Except String (List Nat × ByteBufferParser) := do
  let _ ← p.eof_check size
  pure ((p.buffer.drop p.pos).take size, { p with pos := p.pos + size })

/-- `ByteBufferParser::read_u32_le`. -/
def read_u32_le (p : ByteBufferParser) : Except String (Nat × ByteBufferParser) := do
  let (bs, p) ← p.read 4
  pure (leToNat bs, p)

/-- `ByteBufferParser::read_i32_le`. -/
def read_i32_le (p : ByteBufferParser) : Except String (Int × ByteBufferParser) := do
  let (bs, p) ← p.read 4
  pure (intOfNat 4 (leToNat bs), p)

/-- `ByteBufferParser::read_u64_le`. -/
def read_u64_le (p : ByteBufferParser) : Except String (Nat × ByteBufferParser) := do
  let (bs, p) ← p.read 8
  pure (leToNat bs, p)

/-- `ByteBufferParser::read_i64_le`. -/
def read_i64_le (p : ByteBufferParser) : Except String (Int × ByteBufferParser) := do
  let (bs, p) ← p.read 8
  pure (intOfNat 8 (leToNat bs), p)

/-- `ByteBufferParser::read_u16_be`. -/
def read_u16_be (p : ByteBufferParser) : Except String (Nat × ByteBufferParser) := do
  let (bs, p) ← p.read 2
  pure (beToNat bs, p)

/-- `ByteBufferParser::parse_net_addr` (without time field): 8-byte LE
service mask, 16-byte IP, 2-byte BE port. -/
def parse_net_addr (p : ByteBufferParser) :
    Except String ((NodeServiceSet × SockAddr) × ByteBufferParser) := do
  let (services_mask, p) ← p.read_u64_le
  let (ip, p) ← p.read 16
  let (port, p) ← p.read_u16_be
  pure ((NodeServiceSet.from_bitmask services_mask, SockAddr.mk ip port), p)

end ByteBufferParser

/-- `struct IOBuffer { buffer: [u8; 1024], mark: usize }` — bytes `[0, mark)`
are valid unconsumed content. -/
structure IOBuffer where
  buffer : List Nat
  mark : Nat
deriving DecidableEq, Repr

namespace IOBuffer

/-- `IOBuffer::default()`: 1024 zero bytes, mark 0. -/
def default : IOBuffer := ⟨List.replicate 1024 0, 0⟩

/-- `IOBuffer::content`: the valid prefix `buffer[..mark]`. -/
def content (b : IOBuffer) : List Nat := b.buffer.take b.mark

/-- `IOBuffer::register_added_content` (the source asserts
`mark + size <= 1024`; call sites maintain this). -/
def register_added_content (b : IOBuffer) (size : Nat) : IOBuffer :=
  { b with mark := b.mark + size }

/-- `IOBuffer::shift_left`: `buffer.rotate_left(size)` and `mark -= size`
(the source asserts `size <= mark`; call sites maintain this). -/
def shift_left (b : IOBuffer) (size : Nat) : IOBuffer :=
  { buffer := b.buffer.rotate size, mark := b.mark - size }

/-- Writing `bs` into `expose_writable_part()` and then calling
`register_added_content(bs.len())` — the effect of one successful
`socket.read` into the buffer. -/
def absorb (b : IOBuffer) (bs : List Nat) : IOBuffer :=
  { buffer := b.buffer.take b.mark ++ bs ++ b.buffer.drop (b.mark + bs.length),
    mark := b.mark + bs.length }

end IOBuffer

/-! ## The frame codec (`net/src/wire_protocol/raw_message.rs`) -/

/-- `enum Command { Version, Verack, Ping, Pong }`. -/
inductive Command
  | Version
  | Verack
  | Ping
  | Pong
deriving DecidableEq, Repr

/-- `Command::as_bytes`: the 12-byte NUL-padded ASCII command tag. -/
def Command.as_bytes : Command → List Nat
  | .Version => [118, 101, 114, 115, 105, 111, 110, 0, 0, 0, 0, 0]
  | .Verack => [118, 101, 114, 97, 99, 107, 0, 0, 0, 0, 0, 0]
  | .Ping => [112, 105, 110, 103, 0, 0, 0, 0, 0, 0, 0, 0]
  | .Pong => [112, 111, 110, 103, 0, 0, 0, 0, 0, 0, 0, 0]

/-- The order `Command::iter()` visits the variants in. -/
def commandIterOrder : List Command := [.Version, .Verack, .Ping, .Pong]

/-- `impl TryFrom<&[u8]> for Command`: first command in iteration order whose
tag bytes equal `value`, else an error. -/
def Command.try_from (value : List Nat) : Except String Command :=
  match commandIterOrder.find? (fun c => c.as_bytes == value) with
  | some c => .ok c
  | none => .error "do not represent a known bitcoin command"

/-- `struct RawMessage { chain, command, payload }`. -/
structure RawMessage where
  chain : Chain
  command : Command
  payload : List Nat
deriving DecidableEq, Repr

/-- `MessageParseOutcome`. -/
inductive MessageParseOutcome
  | Message (m : RawMessage)
  | SkippedMessage
  | NoMessage
deriving DecidableEq, Repr

instance {ε α : Type} [DecidableEq ε] [DecidableEq α] : DecidableEq (Except ε α) :=
  fun a b =>
    match a, b with
    | .ok x, .ok y =>
      if h : x = y then .isTrue (by rw [h]) else .isFalse (by simp [h])
    | .error x, .error y =>
      if h : x = y then .isTrue (by rw [h]) else .isFalse (by simp [h])
    | .ok _, .error _ => .isFalse (by simp)
    | .error _, .ok _ => .isFalse (by simp)

namespace RawMessage

/-- `RawMessage::new`. -/
def new (chain : Chain) (command : Command) (payload : List Nat) : RawMessage :=
  ⟨chain, command, payload⟩

/-- `RawMessage::to_bytes`:
`magic (u32 LE) | command (12 bytes) | payload length (u32 LE) |
checksum = sha256(sha256(payload))[..4] | payload`. -/
def to_bytes (m : RawMessage) : List Nat :=
  natToLe 4 m.chain.magic_value ++ m.command.as_bytes
    ++ natToLe 4 (m.payload.length % 2 ^ 32)
    ++ (sha256 (sha256 m.payload)).take 4
    ++ m.payload

/-- `RawMessage::verify_checksum`. -/
def verify_checksum (payload checksum : List Nat) : Except String Unit :=
  if checksum = (sha256 (sha256 payload)).take 4 then .ok ()
  else .error "checksum error"

/-- `HEADER_LEN = 4 + 12 + 4 + 4`. -/
def HEADER_LEN : Nat := 4 + 12 + 4 + 4

/-- `RawMessage::try_consume_message(buffer, expected_chain)`.

The Rust function mutates `buffer` in place and returns
`PeerResult<MessageParseOutcome>`; here the (possibly shifted) buffer is
returned alongside the result.  Note that `buffer.shift_left` is called only
on the `SkippedMessage` and `Message` paths — every error path returns with
the buffer untouched. -/
def try_consume_message (buffer : IOBuffer) (expected_chain : Chain) :
    Except String MessageParseOutcome × IOBuffer :=
  let parser := ByteBufferParser.new buffer.content
  if parser.remaining < HEADER_LEN then (.ok .NoMessage, buffer)
  else
    match parser.read_u32_le with
    | .error e => (.error e, buffer)
    | .ok (magic, parser) =>
      match Chain.try_from magic with
      | .error e => (.error e, buffer)
      | .ok chain =>
        if chain ≠ expected_chain then
          (.error ("expected network chain " ++ expected_chain.debugStr
            ++ ", but got a message from " ++ chain.debugStr), buffer)
        else
          match parser.read 12 with
          | .error e => (.error e, buffer)
          | .ok (command_string, parser) =>
            match parser.read_u32_le with
            | .error e => (.error e, buffer)
            | .ok (payload_len, parser) =>
              match parser.read 4 with
              | .error e => (.error e, buffer)
              | .ok (checksum, parser) =>
                if parser.remaining < payload_len then (.ok .NoMessage, buffer)
                else
                  match parser.read payload_len with
                  | .error e => (.error e, buffer)
                  | .ok (payload, parser) =>
                    match verify_checksum payload checksum with
                    | .error e => (.error e, buffer)
                    | .ok _ =>
                      match Command.try_from command_string with
                      | .error _ =>
                        (.ok .SkippedMessage, buffer.shift_left parser.pos)
                      | .ok command =>
                        (.ok (.Message ⟨chain, command, payload⟩),
                          buffer.shift_left parser.pos)

end RawMessage

/-! ## Protocol messages (`net/src/wire_protocol/messages.rs`) -/

/-- `struct VersionMessage` (decoded form). -/
structure VersionMessage where
  chain : Chain
  protocol_version : Int
  services : NodeServiceSet
  timestamp : Int
  addr_recv : SockAddr
  sub_ver : String
  start_height : Int
deriving DecidableEq, Repr

namespace VersionMessage

/-- `VersionMessage::new(addr_recv, me)`; the Unix timestamp the source takes
from `SystemTime::now()` is passed in explicitly. -/
def new (addr_recv : SockAddr) (me : NodeDesc) (timestamp : Int) : VersionMessage :=
  { chain := me.chain
    protocol_version := me.protocol_version
    services := me.services
    timestamp
    addr_recv
    sub_ver := me.sub_ver
    start_height := me.start_height }

/-- `VersionMessage::from_raw_message`: decode the version payload.  The
sender-address block and nonce are skipped; `sub_ver` and `start_height` are
not parsed from the wire (TODO in the source) but hardcoded to `""` and `1`. -/
def from_raw_message (raw : RawMessage) : Except String VersionMessage := do
  let p := ByteBufferParser.new raw.payload
  let (protocol_version, p) ← p.read_i32_le
  let (services_mask, p) ← p.read_u64_le
  let services := NodeServiceSet.from_bitmask services_mask
  let (timestamp, p) ← p.read_i64_le
  let ((_, addr_recv), p) ← p.parse_net_addr
  let p ← p.skip_bytes 26
  let _ ← p.skip_bytes 8
  pure { chain := raw.chain
         protocol_version
         services
         timestamp
         addr_recv
         sub_ver := ""
         start_height := 1 }

/-- `ByteBufferComposer::append_net_addr`: 8-byte LE service mask, 16-byte
IP (IPv4 addresses are written IPv4-mapped), 2-byte BE port. -/
def net_addr_bytes (service : NodeServiceSet) (addr : SockAddr) : List Nat :=
  natToLe 8 service.as_bitmask ++ addr.ip ++ natToBe 2 addr.port

/-- `VersionMessage::to_raw_message`; the random nonce the source takes from
`thread_rng()` is passed in explicitly. -/
def to_raw_message (m : VersionMessage) (nonce : Nat) : RawMessage :=
  let payload :=
    intToLe 4 m.protocol_version
      ++ natToLe 8 m.services.as_bitmask
      ++ intToLe 8 m.timestamp
      ++ net_addr_bytes m.services m.addr_recv
      ++ List.replicate 26 0
      ++ natToLe 8 (nonce % 2 ^ 64)
      ++ [0]
      ++ intToLe 4 m.start_height
      ++ [0]
  RawMessage.new m.chain Command.Version payload

end VersionMessage

/-- `enum ProtocolMessage`; `VerackMessage`, `PingMessage` and `PongMessage`
are structs holding only their chain. -/
inductive ProtocolMessage
  | Version (m : VersionMessage)
  | Verack (chain : Chain)
  | Ping (chain : Chain)
  | Pong (chain : Chain)
deriving DecidableEq, Repr

/-- `RawMessage::to_protocol_message`. -/
def RawMessage.to_protocol_message (m : RawMessage) : Except String ProtocolMessage :=
  match m.command with
  | .Version => (VersionMessage.from_raw_message m).map ProtocolMessage.Version
  | .Verack => .ok (.Verack m.chain)
  | .Ping => .ok (.Ping m.chain)
  | .Pong => .ok (.Pong m.chain)

/-! ## Conversation abstraction and the handshake handler
(`net/src/conversation.rs`, `net/src/wire_protocol/handshake.rs`) -/

/-- `struct ConversationAction { message, topic_finished }`. -/
structure ConversationAction where
  message : Option ProtocolMessage
  topic_finished : Bool
deriving DecidableEq, Repr

/-- `ConversationAction::nop()`. -/
def ConversationAction.nop : ConversationAction := ⟨none, false⟩

/-- `struct HandshakeInitConversationTopic`. -/
structure HandshakeInitConversationTopic where
  me : NodeDesc
  remote_addr : SockAddr
  version_msg_sent : Bool
  version_ack_msg_received : Bool
  version_msg_received : Option VersionMessage
deriving DecidableEq, Repr

namespace HandshakeInitConversationTopic

/-- `HandshakeInitConversationTopic::new`. -/
def new (me : NodeDesc) (remote_addr : SockAddr) : HandshakeInitConversationTopic :=
  { me, remote_addr
    version_msg_sent := false
    version_ack_msg_received := false
    version_msg_received := none }

/-- `initial_action(&mut self)`: emit our Version message, set
`version_msg_sent`.  The timestamp of the emitted message is passed in
(`SystemTime::now()` in the source).  The updated handler is returned
alongside the action. -/
def initial_action (h : HandshakeInitConversationTopic) (ts : Int) :
    ConversationAction × HandshakeInitConversationTopic :=
  (⟨some (.Version (VersionMessage.new h.remote_addr h.me ts)), false⟩,
    { h with version_msg_sent := true })

/-- `on_message(&mut self, message)`: the handler reacts to one inbound
message.  Mutations of `&mut self` persist even when an error is returned,
so the updated handler is returned in both cases. -/
def on_message (h : HandshakeInitConversationTopic) (message : ProtocolMessage) :
    Except String ConversationAction × HandshakeInitConversationTopic :=
  match message with
  | .Version m =>
    let h := { h with version_msg_received := some m }
    let reply_msg := ProtocolMessage.Verack h.me.chain
    let topic_finished := h.version_msg_sent && h.version_ack_msg_received
    (.ok ⟨some reply_msg, topic_finished⟩, h)
  | .Verack _ =>
    let h := { h with version_ack_msg_received := true }
    if !h.version_msg_sent then
      (.error "Protocol error: received a 'verack', but no 'version' was sent yet", h)
    else
      let topic_finished := h.version_msg_received.isSome
      (.ok ⟨none, topic_finished⟩, h)
  | .Ping _ =>
    (.ok ⟨some (.Pong h.me.chain), false⟩, h)
  | .Pong _ =>
    (.ok ConversationAction.nop, h)

/-- `outcome(self)`: consume the handler, build the remote node descriptor
from the received Version message plus the locally configured chain. -/
def outcome (h : HandshakeInitConversationTopic) : Except String NodeDesc :=
  match h.version_msg_received with
  | none => .error "should have a version message from remote node"
  | some msg =>
    .ok { chain := h.me.chain
          protocol_version := msg.protocol_version
          services := msg.services
          sub_ver := msg.sub_ver
          start_height := msg.start_height }

end HandshakeInitConversationTopic

/-! ## The connection driver (`net/src/wire_protocol/connection.rs`)

`NodeConnection::proceed_conversation` drives the read/parse/dispatch/write
loop over a live socket.  The socket is modelled by the scripted list of the
chunks successive `socket.read` calls deliver (an empty chunk is a zero-byte
read, i.e. the remote closed), writes are external effects that do not feed
back into the loop, and the inner drain loop — whose `Err` arm repeats with
an unchanged buffer — is given explicit fuel. -/

/-- Result of the inner `'inner: loop` drain. -/
inductive InnerOutcome
  | needMore (buffer : IOBuffer) (h : HandshakeInitConversationTopic)
  | finishedTopic (h : HandshakeInitConversationTopic)
  | failed (e : String)
  | spinning
deriving DecidableEq, Repr

/-- One execution of the driver's `'inner: loop` (connection.rs lines
43–68), with fuel: `.needMore` is `break 'inner`, `.finishedTopic` is
`break 'outer`, `.failed` is an error returned through `?`, and `.spinning`
means the fuel ran out while the loop kept iterating. -/
def inner_loop (chain : Chain) :
    Nat → IOBuffer → HandshakeInitConversationTopic → InnerOutcome
  | 0, _, _ => .spinning
  | fuel + 1, buffer, h =>
    match RawMessage.try_consume_message buffer chain with
    | (.ok (.Message raw_message), buffer') =>
      match raw_message.to_protocol_message with
      | .error e => .failed e
      | .ok received_message =>
        match h.on_message received_message with
        | (.error e, _) => .failed e
        | (.ok handler_response, h') =>
          -- `write_all(response_message.to_bytes())`: external effect
          if handler_response.topic_finished then .finishedTopic h'
          else inner_loop chain fuel buffer' h'
    | (.ok .SkippedMessage, buffer') => inner_loop chain fuel buffer' h
    | (.ok .NoMessage, _) => .needMore buffer h
    | (.error _, buffer') =>
      -- `log::warn!("ignoring incoming message, ...")` and continue
      inner_loop chain fuel buffer' h

/-- Result of `proceed_conversation`: either `handler.outcome()` was invoked
and its result returned, or an error was returned (so `outcome()` was never
invoked).  `.stuck` is a model artifact (scripted input or fuel exhausted
while the source would keep blocking/looping). -/
inductive DriveResult
  | outcomeInvoked (r : Except String NodeDesc)
  | failed (e : String)
  | stuck
deriving Repr

instance : DecidableEq DriveResult := fun a b =>
  match a, b with
  | .outcomeInvoked (.ok x), .outcomeInvoked (.ok y) =>
    if h : x = y then .isTrue (by rw [h]) else .isFalse (by simp [h])
  | .outcomeInvoked (.error x), .outcomeInvoked (.error y) =>
    if h : x = y then .isTrue (by rw [h]) else .isFalse (by simp [h])
  | .outcomeInvoked (.ok _), .outcomeInvoked (.error _) => .isFalse (by simp)
  | .outcomeInvoked (.error _), .outcomeInvoked (.ok _) => .isFalse (by simp)
  | .failed x, .failed y =>
    if h : x = y then .isTrue (by rw [h]) else .isFalse (by simp [h])
  | .stuck, .stuck => .isTrue rfl
  | .outcomeInvoked _, .failed _ => .isFalse (by simp)
  | .outcomeInvoked _, .stuck => .isFalse (by simp)
  | .failed _, .outcomeInvoked _ => .isFalse (by simp)
  | .failed _, .stuck => .isFalse (by simp)
  | .stuck, .outcomeInvoked _ => .isFalse (by simp)
  | .stuck, .failed _ => .isFalse (by simp)

/-- The driver's `'outer: loop`: allocate a fresh `IOBuffer::default()`,
read the next scripted chunk into it (`0` bytes read returns the
"Remote node hung up" error), and drain it with the inner loop. -/
def outer_loop (chain : Chain) (fuel : Nat) :
    List (List Nat) → HandshakeInitConversationTopic → DriveResult
  | [], _ => .stuck
  | chunk :: rest, h =>
    if chunk.length = 0 then .failed "Remote node hung up"
    else
      let buffer := IOBuffer.default.absorb chunk
      match inner_loop chain fuel buffer h with
      | .needMore _ h' => outer_loop chain fuel rest h'
      | .finishedTopic h' => .outcomeInvoked h'.outcome
      | .failed e => .failed e
      | .spinning => .stuck

/-- `NodeConnection::proceed_conversation(handler)` for the handshake
handler: send `initial_action`'s message (external effect), return the
outcome immediately if already finished, else run the read loop. -/
def proceed_conversation (chain : Chain) (fuel : Nat) (ts : Int)
    (chunks : List (List Nat)) (handler : HandshakeInitConversationTopic) :
    DriveResult :=
  let (initial_action, handler) := handler.initial_action ts
  -- `write_all(message.to_bytes())`: external effect
  if initial_action.topic_finished then .outcomeInvoked handler.outcome
  else outer_loop chain fuel chunks handler

/-! ## Helper definitions used in the statements -/

/-- The byte layout `RawMessage::to_bytes` produces, generalised to an
arbitrary 12-byte command tag (this is needed to state facts about incoming
frames whose command tag is not in the `Command` enum). -/
def frame_bytes (chain : Chain) (command_tag payload : List Nat) : List Nat :=
  natToLe 4 chain.magic_value
    ++ (command_tag
    ++ (natToLe 4 (payload.length % 2 ^ 32)
    ++ ((sha256 (sha256 payload)).take 4
    ++ payload)))

/-- Statement-side helper: the inbound message is a Version message. -/
def ProtocolMessage.isVersionMsg : ProtocolMessage → Bool
  | .Version _ => true
  | _ => false

/-- Statement-side helper: the inbound message is an Acknowledgment. -/
def ProtocolMessage.isVerackMsg : ProtocolMessage → Bool
  | .Verack _ => true
  | _ => false

/-- Thread a list of inbound messages through `on_message`, keeping the
`&mut self` state mutations (also those made on an error path). -/
def HandshakeInitConversationTopic.apply_messages
    (h : HandshakeInitConversationTopic) (msgs : List ProtocolMessage) :
    HandshakeInitConversationTopic :=
  msgs.foldl (fun h m => (h.on_message m).2) h

/-- A concrete local descriptor (the spec's reference scenario:
`{chain=Regtest, version=70016, services=[NodeNetwork], height=1}`). -/
def me0 : NodeDesc :=
  ⟨Chain.Regtest, 70016, ⟨[NodeService.NodeNetwork]⟩, "", 1⟩

/-- A concrete remote address (all-zero IPv6 bytes, port 18334). -/
def addr0 : SockAddr := ⟨List.replicate 16 0, 18334⟩

/-- A concrete well-formed remote Version message. -/
def vm0 : VersionMessage :=
  ⟨Chain.Regtest, 70016, ⟨[NodeService.NodeNetwork]⟩, 0, addr0, "", 1⟩

/-- The all-zero 80-byte Version payload (large enough for every field the
decoder reads). -/
def version_payload0 : List Nat := List.replicate 80 0

/-- A concrete well-formed Version wire payload: protocol version 70016,
services mask 1, timestamp 0, receiver `addr0`, zero sender block and nonce,
empty user agent, start height 5, relay 0. -/
def c8_wire_payload : List Nat :=
  natToLe 4 70016 ++ (natToLe 8 1 ++ (natToLe 8 0 ++ (natToLe 8 1
    ++ (List.replicate 16 0 ++ (natToBe 2 18334 ++ (List.replicate 26 0
    ++ (natToLe 8 0 ++ ([0] ++ (intToLe 4 5 ++ [0])))))))))

/-! ## Byte-encoding and digest lemmas -/

theorem natToLe_length (w n : Nat) : (natToLe w n).length = w := by
  induction w generalizing n with
  | zero => rfl
  | succ w ih => simp [natToLe, ih]

theorem leToNat_natToLe (w n : Nat) : leToNat (natToLe w n) = n % 256 ^ w := by
  induction w generalizing n with
  | zero => simp [natToLe, leToNat, Nat.mod_one]
  | succ w ih =>
    simp only [natToLe, leToNat, ih]
    rw [Nat.pow_succ, Nat.mul_comm (256 ^ w) 256, Nat.mod_mul]

theorem leToNat_natToLe_of_lt {w n : Nat} (h : n < 256 ^ w) :
    leToNat (natToLe w n) = n := by
  rw [leToNat_natToLe, Nat.mod_eq_of_lt h]

theorem Sha256.round_length (st : List Nat) (kw : Nat × Nat) :
    (Sha256.round st kw).length = 8 := rfl

theorem Sha256.foldl_round_length (pairs : List (Nat × Nat)) (st : List Nat)
    (h : st.length = 8) : (pairs.foldl Sha256.round st).length = 8 := by
  induction pairs generalizing st with
  | nil => exact h
  | cons p rest ih => exact ih _ (Sha256.round_length st p)

theorem Sha256.compress_length (st block : List Nat) (h : st.length = 8) :
    (Sha256.compress st block).length = 8 := by
  simp [Sha256.compress, List.length_zip, h,
    Sha256.foldl_round_length _ _ h]

theorem Sha256.foldl_compress_length (blocks : List (List Nat)) (st : List Nat)
    (h : st.length = 8) : (blocks.foldl Sha256.compress st).length = 8 := by
  induction blocks generalizing st with
  | nil => exact h
  | cons b rest ih => exact ih _ (Sha256.compress_length _ _ h)

theorem natToBe_length (w n : Nat) : (natToBe w n).length = w := by
  induction w generalizing n with
  | zero => rfl
  | succ w ih => simp [natToBe, ih]

theorem sum_length_natToBe (st : List Nat) :
    (List.map (List.length ∘ natToBe 4) st).sum = 4 * st.length := by
  induction st with
  | nil => simp
  | cons a t ih =>
    simp only [List.map_cons, List.sum_cons, Function.comp_apply, natToBe_length,
      List.length_cons, ih]
    omega

/-- The digest always has 32 bytes. -/
theorem sha256_length (input : List Nat) : (sha256 input).length = 32 := by
  have h8 : ((Sha256.chunkBy 64 (Sha256.pad input)).foldl Sha256.compress
      Sha256.H0).length = 8 :=
    Sha256.foldl_compress_length _ _ rfl
  rw [sha256, List.length_flatMap, sum_length_natToBe, h8]

/-! ## Parsing lemmas -/

theorem ByteBufferParser.read_eq (pre xs rest : List Nat) :
    (ByteBufferParser.mk (pre ++ (xs ++ rest)) pre.length).read xs.length =
      .ok (xs, ⟨pre ++ (xs ++ rest), pre.length + xs.length⟩) := by
  have hnot : ¬ ((ByteBufferParser.mk (pre ++ (xs ++ rest)) pre.length).remaining
      < xs.length) := by
    simp only [ByteBufferParser.remaining, List.length_append]
    omega
  simp only [ByteBufferParser.read, ByteBufferParser.eof_check, hnot, if_false,
    List.drop_left, List.take_left, Bind.bind, Except.bind, pure, Except.pure]

theorem ByteBufferParser.skip_bytes_eq (pre xs rest : List Nat) :
    (ByteBufferParser.mk (pre ++ (xs ++ rest)) pre.length).skip_bytes xs.length =
      .ok ⟨pre ++ (xs ++ rest), pre.length + xs.length⟩ := by
  have hnot : ¬ ((ByteBufferParser.mk (pre ++ (xs ++ rest)) pre.length).remaining
      < xs.length) := by
    simp only [ByteBufferParser.remaining, List.length_append]
    omega
  simp only [ByteBufferParser.skip_bytes, ByteBufferParser.eof_check, hnot, if_false,
    Bind.bind, Except.bind, pure, Except.pure]

theorem pow_256_4 : (256 : Nat) ^ 4 = 2 ^ 32 := by norm_num

theorem pow_256_8 : (256 : Nat) ^ 8 = 2 ^ 64 := by norm_num

theorem ByteBufferParser.read_u32_le_eq (pre rest : List Nat) (n : Nat)
    (h : n < 2 ^ 32) :
    (ByteBufferParser.mk (pre ++ (natToLe 4 n ++ rest)) pre.length).read_u32_le =
      .ok (n, ⟨pre ++ (natToLe 4 n ++ rest), pre.length + 4⟩) := by
  have h4 : (natToLe 4 n).length = 4 := natToLe_length 4 n
  have hr := ByteBufferParser.read_eq pre (natToLe 4 n) rest
  rw [h4] at hr
  simp only [ByteBufferParser.read_u32_le, hr, Bind.bind, Except.bind, pure,
    Except.pure, leToNat_natToLe_of_lt (w := 4) (by rw [pow_256_4]; exact h)]

theorem ByteBufferParser.read_u64_le_eq (pre rest : List Nat) (n : Nat)
    (h : n < 2 ^ 64) :
    (ByteBufferParser.mk (pre ++ (natToLe 8 n ++ rest)) pre.length).read_u64_le =
      .ok (n, ⟨pre ++ (natToLe 8 n ++ rest), pre.length + 8⟩) := by
  have h8 : (natToLe 8 n).length = 8 := natToLe_length 8 n
  have hr := ByteBufferParser.read_eq pre (natToLe 8 n) rest
  rw [h8] at hr
  simp only [ByteBufferParser.read_u64_le, hr, Bind.bind, Except.bind, pure,
    Except.pure, leToNat_natToLe_of_lt (w := 8) (by rw [pow_256_8]; exact h)]

/-- `Chain::try_from(c.magic_value()) == Ok(c)`. -/
theorem Chain.try_from_magic (c : Chain) : Chain.try_from c.magic_value = .ok c := by
  cases c <;> rfl

/-- `Command::try_from(c.as_bytes()) == Ok(c)`. -/
theorem Command.try_from_self (c : Command) : Command.try_from c.as_bytes = .ok c := by
  cases c <;> rfl

theorem Command.as_bytes_length (c : Command) : c.as_bytes.length = 12 := by
  cases c <;> rfl

theorem IOBuffer.shift_left_mark (b : IOBuffer) (k : Nat) :
    (b.shift_left k).mark = b.mark - k := rfl

theorem IOBuffer.shift_left_content (b : IOBuffer) (k : Nat)
    (hk : k ≤ b.mark) (hm : b.mark ≤ b.buffer.length) :
    (b.shift_left k).content = b.content.drop k := by
  have hkl : k ≤ b.buffer.length := le_trans hk hm
  unfold IOBuffer.shift_left IOBuffer.content
  simp only
  rw [List.rotate_eq_drop_append_take hkl,
    List.take_append_of_le_length (by simp only [List.length_drop]; omega),
    List.drop_take]

theorem IOBuffer.absorb_default_content (bs : List Nat) :
    (IOBuffer.default.absorb bs).content = bs := by
  unfold IOBuffer.absorb IOBuffer.default IOBuffer.content
  simp only [List.take_zero, List.nil_append, Nat.zero_add]
  exact List.take_left bs _

theorem IOBuffer.absorb_default_mark (bs : List Nat) :
    (IOBuffer.default.absorb bs).mark = bs.length :=
  Nat.zero_add bs.length

theorem IOBuffer.absorb_default_buffer_length (bs : List Nat)
    (h : bs.length ≤ 1024) :
    (IOBuffer.default.absorb bs).buffer.length = 1024 := by
  unfold IOBuffer.absorb IOBuffer.default
  simp only [List.take_zero, List.nil_append, Nat.zero_add, List.length_append,
    List.length_drop, List.length_replicate]
  omega

theorem Chain.magic_value_lt (c : Chain) : c.magic_value < 2 ^ 32 := by
  cases c <;> decide

theorem RawMessage.to_bytes_eq_frame_bytes (m : RawMessage) :
    m.to_bytes = frame_bytes m.chain m.command.as_bytes m.payload := by
  simp [RawMessage.to_bytes, frame_bytes, List.append_assoc]

theorem frame_bytes_length (chain : Chain) (tag payload : List Nat)
    (htag : tag.length = 12) :
    (frame_bytes chain tag payload).length = 24 + payload.length := by
  simp [frame_bytes, List.length_append, natToLe_length, htag, List.length_take,
    sha256_length]
  omega

/-- Running `try_consume_message` on a buffer whose content starts with a
complete well-checksummed frame for the expected chain: the frame is consumed
(`shift_left` by header + payload length) and the result is `Message` for a
known command tag, `SkippedMessage` for an unknown one. -/
theorem RawMessage.try_consume_frame_bytes (chain : Chain)
    (tag payload rest : List Nat) (b : IOBuffer)
    (hc : b.content = frame_bytes chain tag payload ++ rest)
    (htag : tag.length = 12)
    (hlen : payload.length < 2 ^ 32) :
    RawMessage.try_consume_message b chain =
      ((match Command.try_from tag with
        | .ok command => .ok (.Message ⟨chain, command, payload⟩)
        | .error _ => .ok .SkippedMessage),
       b.shift_left (24 + payload.length)) := by
  have hsha : ((sha256 (sha256 payload)).take 4).length = 4 := by
    simp [List.length_take, sha256_length]
  have hmod : payload.length % 2 ^ 32 = payload.length := Nat.mod_eq_of_lt hlen
  -- canonical right-associated content
  set content := frame_bytes chain tag payload ++ rest with hcontent
  have hclen : content.length = 24 + payload.length + rest.length := by
    simp [hcontent, List.length_append, frame_bytes_length chain tag payload htag]
  have hnot : ¬ ((ByteBufferParser.mk content 0).remaining
      < RawMessage.HEADER_LEN) := by
    simp only [ByteBufferParser.remaining, hclen, RawMessage.HEADER_LEN]
    omega
  have h1 : (ByteBufferParser.mk content 0).read_u32_le =
      .ok (chain.magic_value, ⟨content, 4⟩) := by
    have := ByteBufferParser.read_u32_le_eq []
      (tag ++ (natToLe 4 (payload.length % 2 ^ 32)
        ++ ((sha256 (sha256 payload)).take 4 ++ payload)) ++ rest)
      chain.magic_value (Chain.magic_value_lt chain)
    simp only [List.nil_append, List.length_nil, Nat.zero_add] at this
    rw [hcontent]
    simp only [frame_bytes, List.append_assoc]
    simpa [List.append_assoc] using this
  have h2 : (ByteBufferParser.mk content 4).read 12 =
      .ok (tag, ⟨content, 16⟩) := by
    have := ByteBufferParser.read_eq (natToLe 4 chain.magic_value) tag
      (natToLe 4 (payload.length % 2 ^ 32)
        ++ ((sha256 (sha256 payload)).take 4 ++ payload) ++ rest)
    simp only [natToLe_length, htag] at this
    rw [hcontent]
    simp only [frame_bytes, List.append_assoc]
    simpa [List.append_assoc] using this
  have h3 : (ByteBufferParser.mk content 16).read_u32_le =
      .ok (payload.length % 2 ^ 32, ⟨content, 20⟩) := by
    have := ByteBufferParser.read_u32_le_eq
      (natToLe 4 chain.magic_value ++ tag)
      ((sha256 (sha256 payload)).take 4 ++ payload ++ rest)
      (payload.length % 2 ^ 32) (lt_of_le_of_lt (Nat.mod_le _ _) hlen)
    simp only [List.length_append, natToLe_length, htag] at this
    rw [hcontent]
    simp only [frame_bytes, List.append_assoc]
    simpa [List.append_assoc] using this
  have h4 : (ByteBufferParser.mk content 20).read 4 =
      .ok ((sha256 (sha256 payload)).take 4, ⟨content, 24⟩) := by
    have := ByteBufferParser.read_eq
      (natToLe 4 chain.magic_value ++ tag ++ natToLe 4 (payload.length % 2 ^ 32))
      ((sha256 (sha256 payload)).take 4) (payload ++ rest)
    simp only [hsha, List.length_append, natToLe_length, htag] at this
    rw [hcontent]
    simp only [frame_bytes, List.append_assoc]
    simpa [List.append_assoc] using this
  have hnot2 : ¬ ((ByteBufferParser.mk content 24).remaining
      < payload.length % 2 ^ 32) := by
    simp only [ByteBufferParser.remaining, hclen, hmod]
    omega
  have h5 : (ByteBufferParser.mk content 24).read (payload.length % 2 ^ 32) =
      .ok (payload, ⟨content, 24 + payload.length⟩) := by
    have := ByteBufferParser.read_eq
      (natToLe 4 chain.magic_value ++ tag ++ natToLe 4 (payload.length % 2 ^ 32)
        ++ (sha256 (sha256 payload)).take 4)
      payload rest
    simp only [hsha, List.length_append, natToLe_length, htag] at this
    rw [hmod, hcontent]
    simp only [frame_bytes, List.append_assoc]
    simpa [List.append_assoc] using this
  have hck : RawMessage.verify_checksum payload ((sha256 (sha256 payload)).take 4) =
      .ok () := by
    simp [RawMessage.verify_checksum]
  simp only [RawMessage.try_consume_message, hc, ByteBufferParser.new, hnot,
    if_false, h1, Chain.try_from_magic, ne_eq, not_true_eq_false, h2, h3, h4,
    hnot2, h5, hck]
  cases hcmd : Command.try_from tag with
  | ok command => simp only []
  | error e => simp only []

theorem RawMessage.to_bytes_length (m : RawMessage) :
    m.to_bytes.length = 24 + m.payload.length := by
  rw [RawMessage.to_bytes_eq_frame_bytes]
  exact frame_bytes_length _ _ _ (Command.as_bytes_length _)

/-- Consuming a single exactly-fitting encoded frame from a fresh buffer:
the frame comes back intact and the buffer is fully drained. -/
theorem RawMessage.consume_exact_frame (x : RawMessage)
    (hfit : x.to_bytes.length ≤ 1024) :
    RawMessage.try_consume_message (IOBuffer.default.absorb x.to_bytes) x.chain =
      (.ok (.Message x),
        (IOBuffer.default.absorb x.to_bytes).shift_left (24 + x.payload.length)) ∧
    ((IOBuffer.default.absorb x.to_bytes).shift_left (24 + x.payload.length)).content
      = [] ∧
    ((IOBuffer.default.absorb x.to_bytes).shift_left (24 + x.payload.length)).mark
      = 0 := by
  have hlen24 : x.to_bytes.length = 24 + x.payload.length := x.to_bytes_length
  have hpl : x.payload.length < 2 ^ 32 := by omega
  have hc : (IOBuffer.default.absorb x.to_bytes).content =
      frame_bytes x.chain x.command.as_bytes x.payload ++ [] := by
    rw [IOBuffer.absorb_default_content, RawMessage.to_bytes_eq_frame_bytes,
      List.append_nil]
  have hmaster := RawMessage.try_consume_frame_bytes x.chain x.command.as_bytes
    x.payload [] (IOBuffer.default.absorb x.to_bytes) hc
    (Command.as_bytes_length _) hpl
  simp only [Command.try_from_self] at hmaster
  have hmark : (IOBuffer.default.absorb x.to_bytes).mark = 24 + x.payload.length := by
    rw [IOBuffer.absorb_default_mark, hlen24]
  have hbuf : (IOBuffer.default.absorb x.to_bytes).buffer.length = 1024 :=
    IOBuffer.absorb_default_buffer_length _ hfit
  refine ⟨hmaster, ?_, ?_⟩
  · rw [IOBuffer.shift_left_content _ _ (by omega) (by omega),
      IOBuffer.absorb_default_content]
    exact List.drop_eq_nil_of_le (by omega)
  · rw [IOBuffer.shift_left_mark, hmark]
    omega

/-- C1. For every frame `x` with a known command (every `Command` value)
whose encoding fits the 1024-byte buffer, encoding with `to_bytes`, placing
the bytes into an empty `IOBuffer` and running `try_consume_message` with
the same chain returns `Message x` (chain, command and payload all equal)
and leaves the buffer fully drained (empty content, mark 0). -/
theorem C1_frame_round_trip (x : RawMessage)
    (hfit : x.to_bytes.length ≤ 1024) :
    (RawMessage.try_consume_message (IOBuffer.default.absorb x.to_bytes) x.chain).1
      = .ok (.Message x) ∧
    (RawMessage.try_consume_message (IOBuffer.default.absorb x.to_bytes) x.chain).2.content
      = [] ∧
    (RawMessage.try_consume_message (IOBuffer.default.absorb x.to_bytes) x.chain).2.mark
      = 0 := by
  obtain ⟨h1, h2, h3⟩ := RawMessage.consume_exact_frame x hfit
  rw [h1]
  exact ⟨rfl, h2, h3⟩

set_option maxRecDepth 1000000 in
/-- Witness for C1 at the concrete frame `(Regtest, Verack, [])`. -/
theorem C1_frame_round_trip_witness :
    (RawMessage.mk Chain.Regtest Command.Verack []).to_bytes.length ≤ 1024 ∧
    ((RawMessage.try_consume_message
        (IOBuffer.default.absorb (RawMessage.mk Chain.Regtest Command.Verack []).to_bytes)
        Chain.Regtest).1
      = .ok (.Message (RawMessage.mk Chain.Regtest Command.Verack [])) ∧
    (RawMessage.try_consume_message
        (IOBuffer.default.absorb (RawMessage.mk Chain.Regtest Command.Verack []).to_bytes)
        Chain.Regtest).2.content = [] ∧
    (RawMessage.try_consume_message
        (IOBuffer.default.absorb (RawMessage.mk Chain.Regtest Command.Verack []).to_bytes)
        Chain.Regtest).2.mark = 0) :=
  ⟨by decide, C1_frame_round_trip (RawMessage.mk Chain.Regtest Command.Verack [])
      (by decide)⟩

/-- An unknown 12-byte tag resolves to the `TryFrom` error. -/
theorem Command.try_from_unknown (tag : List Nat)
    (h : ∀ c : Command, tag ≠ c.as_bytes) :
    Command.try_from tag = .error "do not represent a known bitcoin command" := by
  have hfalse : ∀ c : Command, (c.as_bytes == tag) = false := by
    intro c
    simp only [beq_eq_false_iff_ne, ne_eq]
    exact fun hh => h c hh.symm
  unfold Command.try_from commandIterOrder
  simp [List.find?, hfalse]

/-- C7. A complete frame with the expected magic, a correct checksum and a
full payload, but an unrecognized command tag, is consumed whole
(`shift_left` by header + payload length, leaving exactly the trailing
bytes) and reported as `SkippedMessage`, not as an error. -/
theorem C7_unknown_command_skipped (chain : Chain) (tag payload rest : List Nat)
    (b : IOBuffer)
    (hc : b.content = frame_bytes chain tag payload ++ rest)
    (htag : tag.length = 12)
    (hunk : ∀ c : Command, tag ≠ c.as_bytes)
    (hlen : payload.length < 2 ^ 32)
    (hmark : b.mark ≤ b.buffer.length) :
    RawMessage.try_consume_message b chain =
      (.ok .SkippedMessage, b.shift_left (24 + payload.length)) ∧
    (b.shift_left (24 + payload.length)).content = rest := by
  have hmaster := RawMessage.try_consume_frame_bytes chain tag payload rest b hc
    htag hlen
  rw [Command.try_from_unknown tag hunk] at hmaster
  have hclen : b.content.length = 24 + payload.length + rest.length := by
    rw [hc, List.length_append, frame_bytes_length chain tag payload htag]
  have hcm : b.content.length = b.mark := by
    simp only [IOBuffer.content, List.length_take]
    omega
  refine ⟨hmaster, ?_⟩
  rw [IOBuffer.shift_left_content _ _ (by omega) hmark, hc,
    ← frame_bytes_length chain tag payload htag, List.drop_left]

set_option maxRecDepth 1000000 in
/-- Witness for C7 at a concrete frame with tag `"foobar"` and empty
payload. -/
theorem C7_unknown_command_skipped_witness :
    ((IOBuffer.default.absorb
        (frame_bytes Chain.Regtest [102, 111, 111, 98, 97, 114, 0, 0, 0, 0, 0, 0] [])).content
      = frame_bytes Chain.Regtest [102, 111, 111, 98, 97, 114, 0, 0, 0, 0, 0, 0] [] ++ []
      ∧ ([102, 111, 111, 98, 97, 114, 0, 0, 0, 0, 0, 0] : List Nat).length = 12
      ∧ (∀ c : Command, ([102, 111, 111, 98, 97, 114, 0, 0, 0, 0, 0, 0] : List Nat) ≠ c.as_bytes)
      ∧ ([] : List Nat).length < 2 ^ 32
      ∧ (IOBuffer.default.absorb
          (frame_bytes Chain.Regtest [102, 111, 111, 98, 97, 114, 0, 0, 0, 0, 0, 0] [])).mark
        ≤ (IOBuffer.default.absorb
          (frame_bytes Chain.Regtest [102, 111, 111, 98, 97, 114, 0, 0, 0, 0, 0, 0] [])).buffer.length)
    ∧ (RawMessage.try_consume_message
        (IOBuffer.default.absorb
          (frame_bytes Chain.Regtest [102, 111, 111, 98, 97, 114, 0, 0, 0, 0, 0, 0] []))
        Chain.Regtest =
      (.ok .SkippedMessage,
        (IOBuffer.default.absorb
          (frame_bytes Chain.Regtest [102, 111, 111, 98, 97, 114, 0, 0, 0, 0, 0, 0] [])).shift_left
          (24 + ([] : List Nat).length)) ∧
      ((IOBuffer.default.absorb
          (frame_bytes Chain.Regtest [102, 111, 111, 98, 97, 114, 0, 0, 0, 0, 0, 0] [])).shift_left
          (24 + ([] : List Nat).length)).content = []) :=
  ⟨⟨by decide, by decide, by intro c; cases c <;> decide, by decide, by decide⟩,
    C7_unknown_command_skipped Chain.Regtest
      [102, 111, 111, 98, 97, 114, 0, 0, 0, 0, 0, 0] [] []
      (IOBuffer.default.absorb
        (frame_bytes Chain.Regtest [102, 111, 111, 98, 97, 114, 0, 0, 0, 0, 0, 0] []))
      (by decide) (by decide) (by intro c; cases c <;> decide) (by decide)
      (by decide)⟩

/-- C4 (amended). Whenever `try_consume_message` returns an error — in
particular on a checksum failure or a chain mismatch — the buffer is
returned exactly as it was: `shift_left` is never called on an error path,
so the bad frame's bytes are still in the buffer. -/
theorem RawMessage.try_consume_message_buffer_cases (b : IOBuffer)
    (chain : Chain) :
    (RawMessage.try_consume_message b chain).2 = b ∨
    (∃ m, (RawMessage.try_consume_message b chain).1 = .ok (.Message m)) ∨
    (RawMessage.try_consume_message b chain).1 = .ok .SkippedMessage := by
  unfold RawMessage.try_consume_message
  dsimp only
  repeat' split
  all_goals first
    | exact Or.inl rfl
    | exact Or.inr (Or.inl ⟨_, rfl⟩)
    | exact Or.inr (Or.inr rfl)

theorem C4_error_leaves_buffer_unchanged (b : IOBuffer) (chain : Chain)
    (e : String)
    (h : (RawMessage.try_consume_message b chain).1 = .error e) :
    (RawMessage.try_consume_message b chain).2 = b := by
  rcases RawMessage.try_consume_message_buffer_cases b chain with h2 | ⟨m, h2⟩ | h2
  · exact h2
  · rw [h] at h2
    exact absurd h2 (by simp)
  · rw [h] at h2
    exact absurd h2 (by simp)

set_option maxRecDepth 1000000 in
/-- Witness for C4 at a concrete frame whose checksum field is wrong. -/
theorem C4_error_leaves_buffer_unchanged_witness :
    (RawMessage.try_consume_message
        (IOBuffer.default.absorb
          (natToLe 4 Chain.Regtest.magic_value ++ Command.Verack.as_bytes
            ++ natToLe 4 0 ++ [0, 0, 0, 0]))
        Chain.Regtest).1 = .error "checksum error" ∧
    (RawMessage.try_consume_message
        (IOBuffer.default.absorb
          (natToLe 4 Chain.Regtest.magic_value ++ Command.Verack.as_bytes
            ++ natToLe 4 0 ++ [0, 0, 0, 0]))
        Chain.Regtest).2 =
      IOBuffer.default.absorb
        (natToLe 4 Chain.Regtest.magic_value ++ Command.Verack.as_bytes
          ++ natToLe 4 0 ++ [0, 0, 0, 0]) :=
  ⟨by decide,
    C4_error_leaves_buffer_unchanged
      (IOBuffer.default.absorb
        (natToLe 4 Chain.Regtest.magic_value ++ Command.Verack.as_bytes
          ++ natToLe 4 0 ++ [0, 0, 0, 0]))
      Chain.Regtest "checksum error" (by decide)⟩

set_option maxRecDepth 1000000 in
/-- Counterexample to C4 as stated: on this checksum-failing frame the
error is returned while the buffer still holds all 24 bytes of the bad
frame (mark unchanged at 24) — the buffer has *not* been advanced past it. -/
theorem C4_counterexample_buffer_not_advanced :
    (RawMessage.try_consume_message
        (IOBuffer.default.absorb
          (natToLe 4 Chain.Regtest.magic_value ++ Command.Verack.as_bytes
            ++ natToLe 4 0 ++ [0, 0, 0, 0]))
        Chain.Regtest).1 = .error "checksum error" ∧
    (RawMessage.try_consume_message
        (IOBuffer.default.absorb
          (natToLe 4 Chain.Regtest.magic_value ++ Command.Verack.as_bytes
            ++ natToLe 4 0 ++ [0, 0, 0, 0]))
        Chain.Regtest).2.mark = 24 ∧
    (RawMessage.try_consume_message
        (IOBuffer.default.absorb
          (natToLe 4 Chain.Regtest.magic_value ++ Command.Verack.as_bytes
            ++ natToLe 4 0 ++ [0, 0, 0, 0]))
        Chain.Regtest).2.mark ≠ 0 := by
  refine ⟨by decide, by decide, by decide⟩

/-- C2. The set → mask → set round trip: `as_bitmask` folds the flags with
bitwise AND starting from `0x0`, so every mask it produces is `0` and
`from_bitmask` reconstructs the empty set — the claimed round-trip fails on
the singleton `[NodeNetwork]` (the spec itself flags the `bitand` as a slip
for what should be `bitor`). -/
theorem C2_bitmask_round_trip_fails_on_singleton :
    NodeServiceSet.as_bitmask ⟨[NodeService.NodeNetwork]⟩ = 0 ∧
    NodeServiceSet.from_bitmask
      (NodeServiceSet.as_bitmask ⟨[NodeService.NodeNetwork]⟩) = ⟨[]⟩ ∧
    NodeServiceSet.from_bitmask
      (NodeServiceSet.as_bitmask ⟨[NodeService.NodeNetwork]⟩)
      ≠ (⟨[NodeService.NodeNetwork]⟩ : NodeServiceSet) ∧
    (∀ s : NodeServiceSet, NodeServiceSet.as_bitmask s = 0) := by
  refine ⟨by decide, by decide, by decide, ?_⟩
  intro s
  have : ∀ (l : List NodeService), l.foldl (fun bitset bit => bitset &&& bit.as_u64) 0 = 0 := by
    intro l
    induction l with
    | nil => rfl
    | cons a t ih =>
      cases a
      simpa [NodeService.as_u64] using ih
  exact this s.services

/-- Fewer than 24 bytes of content: `NoMessage`, buffer untouched. -/
theorem RawMessage.try_consume_message_short (b : IOBuffer) (chain : Chain)
    (h : b.content.length < 24) :
    RawMessage.try_consume_message b chain = (.ok .NoMessage, b) := by
  have hif : (ByteBufferParser.new b.content).remaining < RawMessage.HEADER_LEN := by
    simp only [ByteBufferParser.new, ByteBufferParser.remaining,
      RawMessage.HEADER_LEN, List.length_nil]
    omega
  simp only [RawMessage.try_consume_message, if_pos hif]

/-- C6. `try_consume_message` returns `NoMessage` — not an error — and the
buffer untouched (same content and mark: the returned buffer is the input
buffer, header bytes not consumed) in both incomplete cases: (1) fewer than
24 bytes in the buffer; (2) a full header for the expected chain whose
`payload_length` field exceeds the bytes remaining after the header. -/
theorem C6_incomplete_frame_no_message :
    (∀ (b : IOBuffer) (chain : Chain), b.content.length < 24 →
      RawMessage.try_consume_message b chain = (.ok .NoMessage, b)) ∧
    (∀ (b : IOBuffer) (chain : Chain) (tag ck rest : List Nat) (plen : Nat),
      b.content = natToLe 4 chain.magic_value
        ++ (tag ++ (natToLe 4 plen ++ (ck ++ rest))) →
      tag.length = 12 → ck.length = 4 → plen < 2 ^ 32 → rest.length < plen →
      RawMessage.try_consume_message b chain = (.ok .NoMessage, b)) := by
  constructor
  · intro b chain h
    exact RawMessage.try_consume_message_short b chain h
  · intro b chain tag ck rest plen hc htag hck hplen hshort
    have hclen : b.content.length = 24 + rest.length := by
      simp [hc, List.length_append, natToLe_length, htag, hck]
      omega
    have hnot : ¬ ((ByteBufferParser.mk b.content 0).remaining
        < RawMessage.HEADER_LEN) := by
      simp only [ByteBufferParser.remaining, hclen, RawMessage.HEADER_LEN]
      omega
    have h1 : (ByteBufferParser.mk b.content 0).read_u32_le =
        .ok (chain.magic_value, ⟨b.content, 4⟩) := by
      have := ByteBufferParser.read_u32_le_eq []
        (tag ++ (natToLe 4 plen ++ (ck ++ rest))) chain.magic_value
        (Chain.magic_value_lt chain)
      simp only [List.nil_append, List.length_nil, Nat.zero_add] at this
      rw [hc]
      exact this
    have h2 : (ByteBufferParser.mk b.content 4).read 12 =
        .ok (tag, ⟨b.content, 16⟩) := by
      have := ByteBufferParser.read_eq (natToLe 4 chain.magic_value) tag
        (natToLe 4 plen ++ (ck ++ rest))
      simp only [natToLe_length, htag] at this
      rw [hc]
      simpa [List.append_assoc] using this
    have h3 : (ByteBufferParser.mk b.content 16).read_u32_le =
        .ok (plen, ⟨b.content, 20⟩) := by
      have := ByteBufferParser.read_u32_le_eq
        (natToLe 4 chain.magic_value ++ tag) (ck ++ rest) plen hplen
      simp only [List.length_append, natToLe_length, htag] at this
      rw [hc]
      simpa [List.append_assoc] using this
    have h4 : (ByteBufferParser.mk b.content 20).read 4 =
        .ok (ck, ⟨b.content, 24⟩) := by
      have := ByteBufferParser.read_eq
        (natToLe 4 chain.magic_value ++ tag ++ natToLe 4 plen) ck rest
      simp only [hck, List.length_append, natToLe_length, htag] at this
      rw [hc]
      simpa [List.append_assoc] using this
    have hshort2 : (ByteBufferParser.mk b.content 24).remaining < plen := by
      simp only [ByteBufferParser.remaining, hclen]
      omega
    simp only [RawMessage.try_consume_message, ByteBufferParser.new, hnot,
      if_false, h1, Chain.try_from_magic, ne_eq, not_true_eq_false, h2, h3, h4,
      hshort2, if_true, ite_true]

set_option maxRecDepth 1000000 in
/-- Witness for C6: a 3-byte buffer (case 1) and a 24-byte header for
Regtest claiming a 1-byte payload with no payload bytes present (case 2). -/
theorem C6_incomplete_frame_no_message_witness :
    ((IOBuffer.default.absorb [1, 2, 3]).content.length < 24 ∧
      RawMessage.try_consume_message (IOBuffer.default.absorb [1, 2, 3]) Chain.Regtest
        = (.ok .NoMessage, IOBuffer.default.absorb [1, 2, 3])) ∧
    ((IOBuffer.default.absorb
        (natToLe 4 Chain.Regtest.magic_value
          ++ (Command.Verack.as_bytes ++ (natToLe 4 1 ++ ([0, 0, 0, 0] ++ []))))).content
      = natToLe 4 Chain.Regtest.magic_value
          ++ (Command.Verack.as_bytes ++ (natToLe 4 1 ++ ([0, 0, 0, 0] ++ []))) ∧
      RawMessage.try_consume_message
        (IOBuffer.default.absorb
          (natToLe 4 Chain.Regtest.magic_value
            ++ (Command.Verack.as_bytes ++ (natToLe 4 1 ++ ([0, 0, 0, 0] ++ [])))))
        Chain.Regtest
        = (.ok .NoMessage,
          IOBuffer.default.absorb
            (natToLe 4 Chain.Regtest.magic_value
              ++ (Command.Verack.as_bytes ++ (natToLe 4 1 ++ ([0, 0, 0, 0] ++ [])))))) :=
  ⟨⟨by decide,
      C6_incomplete_frame_no_message.1 (IOBuffer.default.absorb [1, 2, 3])
        Chain.Regtest (by decide)⟩,
    ⟨by decide,
      C6_incomplete_frame_no_message.2
        (IOBuffer.default.absorb
          (natToLe 4 Chain.Regtest.magic_value
            ++ (Command.Verack.as_bytes ++ (natToLe 4 1 ++ ([0, 0, 0, 0] ++ [])))))
        Chain.Regtest Command.Verack.as_bytes [0, 0, 0, 0] [] 1
        (by decide) (by decide) (by decide) (by decide) (by decide)⟩⟩

namespace HandshakeInitConversationTopic

theorem on_message_version_state (h : HandshakeInitConversationTopic)
    (vm : VersionMessage) :
    (h.on_message (.Version vm)).2 = { h with version_msg_received := some vm } := rfl

theorem on_message_verack_state (h : HandshakeInitConversationTopic) (c : Chain) :
    (h.on_message (.Verack c)).2 = { h with version_ack_msg_received := true } := by
  cases hs : h.version_msg_sent <;> simp [on_message, hs]

theorem on_message_ping_state (h : HandshakeInitConversationTopic) (c : Chain) :
    (h.on_message (.Ping c)).2 = h := rfl

theorem on_message_pong_state (h : HandshakeInitConversationTopic) (c : Chain) :
    (h.on_message (.Pong c)).2 = h := rfl

theorem on_message_preserves_sent (h : HandshakeInitConversationTopic)
    (m : ProtocolMessage) :
    ((h.on_message m).2).version_msg_sent = h.version_msg_sent := by
  cases m with
  | Version vm => rw [on_message_version_state]
  | Verack c => rw [on_message_verack_state]
  | Ping c => rw [on_message_ping_state]
  | Pong c => rw [on_message_pong_state]

theorem apply_messages_preserves_sent (msgs : List ProtocolMessage)
    (h : HandshakeInitConversationTopic) :
    (h.apply_messages msgs).version_msg_sent = h.version_msg_sent := by
  induction msgs generalizing h with
  | nil => rfl
  | cons m rest ih =>
    show ((h.on_message m).2.apply_messages rest).version_msg_sent = _
    rw [ih, on_message_preserves_sent]

/-- The flags only become true because a message of the matching kind was
processed. -/
theorem apply_messages_flag_origin (msgs : List ProtocolMessage)
    (h : HandshakeInitConversationTopic) :
    ((h.apply_messages msgs).version_ack_msg_received = true →
      h.version_ack_msg_received = true ∨ msgs.any ProtocolMessage.isVerackMsg = true) ∧
    ((h.apply_messages msgs).version_msg_received.isSome = true →
      h.version_msg_received.isSome = true ∨ msgs.any ProtocolMessage.isVersionMsg = true) := by
  induction msgs generalizing h with
  | nil => exact ⟨fun hh => Or.inl hh, fun hh => Or.inl hh⟩
  | cons m rest ih =>
    have step : h.apply_messages (m :: rest) = ((h.on_message m).2).apply_messages rest := rfl
    constructor
    · intro hh
      rw [step] at hh
      rcases (ih _).1 hh with h1 | h1
      · cases m with
        | Version vm =>
          rw [on_message_version_state] at h1
          exact Or.inl h1
        | Verack c => simp [ProtocolMessage.isVerackMsg]
        | Ping c =>
          rw [on_message_ping_state] at h1
          exact Or.inl h1
        | Pong c =>
          rw [on_message_pong_state] at h1
          exact Or.inl h1
      · simp [List.any_cons, h1]
    · intro hh
      rw [step] at hh
      rcases (ih _).2 hh with h1 | h1
      · cases m with
        | Version vm => simp [ProtocolMessage.isVersionMsg]
        | Verack c =>
          rw [on_message_verack_state] at h1
          exact Or.inl h1
        | Ping c =>
          rw [on_message_ping_state] at h1
          exact Or.inl h1
        | Pong c =>
          rw [on_message_pong_state] at h1
          exact Or.inl h1
      · simp [List.any_cons, h1]

end HandshakeInitConversationTopic

/-- C5. For the handler started via `initial_action` (which sets
`version_msg_sent`), (1) any `on_message` result with
`topic_finished = true` can only arise after both a Version and an
Acknowledgment have been received among the processed messages, and
(2)–(3) both arrival orders Version-then-Ack and Ack-then-Version succeed
without error, finishing exactly on the second message. -/
theorem C5_finished_requires_version_and_ack (me : NodeDesc) (addr : SockAddr)
    (ts : Int) :
    (∀ (msgs : List ProtocolMessage) (m : ProtocolMessage)
        (act : ConversationAction),
      (((((HandshakeInitConversationTopic.new me addr).initial_action ts).2).apply_messages
          msgs).on_message m).1 = .ok act →
      act.topic_finished = true →
      (msgs ++ [m]).any ProtocolMessage.isVersionMsg = true ∧
      (msgs ++ [m]).any ProtocolMessage.isVerackMsg = true) ∧
    (∀ (vm : VersionMessage) (c : Chain),
      ((((HandshakeInitConversationTopic.new me addr).initial_action ts).2).on_message
        (.Version vm)).1 = .ok ⟨some (.Verack me.chain), false⟩ ∧
      (((((HandshakeInitConversationTopic.new me addr).initial_action ts).2).on_message
          (.Version vm)).2.on_message (.Verack c)).1 = .ok ⟨none, true⟩) ∧
    (∀ (c : Chain) (vm : VersionMessage),
      ((((HandshakeInitConversationTopic.new me addr).initial_action ts).2).on_message
        (.Verack c)).1 = .ok ⟨none, false⟩ ∧
      (((((HandshakeInitConversationTopic.new me addr).initial_action ts).2).on_message
          (.Verack c)).2.on_message (.Version vm)).1 = .ok ⟨some (.Verack me.chain), true⟩) := by
  refine ⟨?_, ?_, ?_⟩
  · intro msgs m act hok hfin
    set h0 := (((HandshakeInitConversationTopic.new me addr).initial_action ts)).2 with hh0
    have hsent : (h0.apply_messages msgs).version_msg_sent = true := by
      rw [HandshakeInitConversationTopic.apply_messages_preserves_sent]
      rfl
    have hack0 : h0.version_ack_msg_received = false := rfl
    have hrecv0 : h0.version_msg_received = none := rfl
    cases m with
    | Version vm =>
      have : (((h0.apply_messages msgs)).on_message (.Version vm)).1 =
          .ok ⟨some (.Verack (h0.apply_messages msgs).me.chain),
            (h0.apply_messages msgs).version_msg_sent
              && (h0.apply_messages msgs).version_ack_msg_received⟩ := rfl
      rw [this] at hok
      have hact := (Except.ok.injEq _ _).mp hok
      rw [← hact] at hfin
      simp only [hsent, Bool.true_and] at hfin
      rcases (HandshakeInitConversationTopic.apply_messages_flag_origin msgs h0).1 hfin with
        hcontra | hany
      · rw [hack0] at hcontra
        exact absurd hcontra (by simp)
      · constructor
        · simp [List.any_append, ProtocolMessage.isVersionMsg]
        · simp [List.any_append, hany]
    | Verack c =>
      have hs := hsent
      have : (((h0.apply_messages msgs)).on_message (.Verack c)).1 =
          .ok ⟨none, (h0.apply_messages msgs).version_msg_received.isSome⟩ := by
        simp [HandshakeInitConversationTopic.on_message, hs]
      rw [this] at hok
      have hact := (Except.ok.injEq _ _).mp hok
      rw [← hact] at hfin
      simp only at hfin
      rcases (HandshakeInitConversationTopic.apply_messages_flag_origin msgs h0).2 hfin with
        hcontra | hany
      · rw [hrecv0] at hcontra
        exact absurd hcontra (by simp)
      · constructor
        · simp [List.any_append, hany]
        · simp [List.any_append, ProtocolMessage.isVerackMsg]
    | Ping c =>
      have : (((h0.apply_messages msgs)).on_message (.Ping c)).1 =
          .ok ⟨some (.Pong (h0.apply_messages msgs).me.chain), false⟩ := rfl
      rw [this] at hok
      have hact := (Except.ok.injEq _ _).mp hok
      rw [← hact] at hfin
      exact absurd hfin (by simp)
    | Pong c =>
      have : (((h0.apply_messages msgs)).on_message (.Pong c)).1 =
          .ok ConversationAction.nop := rfl
      rw [this] at hok
      have hact := (Except.ok.injEq _ _).mp hok
      rw [← hact] at hfin
      exact absurd hfin (by simp [ConversationAction.nop])
  · intro vm c
    constructor
    · rfl
    · simp [HandshakeInitConversationTopic.initial_action,
        HandshakeInitConversationTopic.new, HandshakeInitConversationTopic.on_message]
  · intro c vm
    constructor
    · simp [HandshakeInitConversationTopic.initial_action,
        HandshakeInitConversationTopic.new, HandshakeInitConversationTopic.on_message]
    · simp [HandshakeInitConversationTopic.initial_action,
        HandshakeInitConversationTopic.new, HandshakeInitConversationTopic.on_message]

/-- Witness for C5: the handler that saw a premature-free Ack first and then
a Version reports `topic_finished = true`, and both kinds of message indeed
occur in the processed list. -/
theorem C5_finished_requires_version_and_ack_witness :
    (((((HandshakeInitConversationTopic.new me0 addr0).initial_action 0).2).apply_messages
        [ProtocolMessage.Verack Chain.Regtest]).on_message
        (ProtocolMessage.Version vm0)).1
      = .ok ⟨some (.Verack Chain.Regtest), true⟩ ∧
    ((⟨some (.Verack Chain.Regtest), true⟩ : ConversationAction).topic_finished = true) ∧
    (([ProtocolMessage.Verack Chain.Regtest] ++ [ProtocolMessage.Version vm0]).any
        ProtocolMessage.isVersionMsg = true ∧
      ([ProtocolMessage.Verack Chain.Regtest] ++ [ProtocolMessage.Version vm0]).any
        ProtocolMessage.isVerackMsg = true) :=
  ⟨by decide, by decide,
    (C5_finished_requires_version_and_ack me0 addr0 0).1
      [ProtocolMessage.Verack Chain.Regtest] (ProtocolMessage.Version vm0)
      ⟨some (.Verack Chain.Regtest), true⟩ (by decide) (by decide)⟩

/-- C10 (amended). A premature Acknowledgment (`version_msg_sent = false`)
returns the protocol-violation error but has already set
`version_ack_msg_received` — every other field unchanged; a *subsequent*
Version message delivered to the same handler however reports
`topic_finished = false`, because `version_msg_sent` is still false and the
Version arm computes `version_msg_sent && version_ack_msg_received`. -/
theorem C10_premature_ack_mutates_state (h : HandshakeInitConversationTopic)
    (c : Chain)
    (hsent : h.version_msg_sent = false) :
    (h.on_message (.Verack c)).1 =
      .error "Protocol error: received a 'verack', but no 'version' was sent yet" ∧
    (h.on_message (.Verack c)).2 = { h with version_ack_msg_received := true } ∧
    (∀ vm : VersionMessage,
      (((h.on_message (.Verack c)).2).on_message (.Version vm)).1 =
        .ok ⟨some (.Verack h.me.chain), false⟩) := by
  refine ⟨?_, HandshakeInitConversationTopic.on_message_verack_state h c, ?_⟩
  · simp [HandshakeInitConversationTopic.on_message, hsent]
  · intro vm
    rw [HandshakeInitConversationTopic.on_message_verack_state]
    simp [HandshakeInitConversationTopic.on_message, hsent]

/-- Witness for C10's amended statement at a fresh handler. -/
theorem C10_premature_ack_mutates_state_witness :
    (HandshakeInitConversationTopic.new me0 addr0).version_msg_sent = false ∧
    (((HandshakeInitConversationTopic.new me0 addr0).on_message
        (.Verack Chain.Regtest)).1 =
      .error "Protocol error: received a 'verack', but no 'version' was sent yet" ∧
    ((HandshakeInitConversationTopic.new me0 addr0).on_message
        (.Verack Chain.Regtest)).2 =
      { HandshakeInitConversationTopic.new me0 addr0 with
          version_ack_msg_received := true } ∧
    (∀ vm : VersionMessage,
      ((((HandshakeInitConversationTopic.new me0 addr0).on_message
          (.Verack Chain.Regtest)).2).on_message (.Version vm)).1 =
        .ok ⟨some (.Verack (HandshakeInitConversationTopic.new me0 addr0).me.chain),
          false⟩)) :=
  ⟨by decide,
    C10_premature_ack_mutates_state (HandshakeInitConversationTopic.new me0 addr0)
      Chain.Regtest (by decide)⟩

/-- Counterexample to C10 as stated: after the premature Ack error, a
subsequent Version message reports `topic_finished = false` (the claim says
it would report `true`): `version_msg_sent` is still false. -/
theorem C10_counterexample_subsequent_version_not_finished :
    ((((HandshakeInitConversationTopic.new me0 addr0).on_message
        (.Verack Chain.Regtest)).2).on_message (.Version vm0)).1 =
      .ok ⟨some (.Verack Chain.Regtest), false⟩ ∧
    ((((HandshakeInitConversationTopic.new me0 addr0).on_message
        (.Verack Chain.Regtest)).2).on_message (.Version vm0)).1 ≠
      .ok ⟨some (.Verack Chain.Regtest), true⟩ := by
  refine ⟨by decide, by decide⟩

/-- C3 (amended). In the Connection Driver's loop, a frame-decode error from
`try_consume_message` (checksum mismatch, chain mismatch, unknown magic)
does NOT propagate: the `Err` arm only logs and continues, and since the
buffer was left unchanged the drain loop re-hits the same error forever
(`.spinning` for every fuel) — no such error ever terminates the
connection.  An unrecognized command (`SkippedMessage`) is likewise absorbed
and the loop simply continues with the shifted buffer. -/
theorem C3_decode_errors_absorbed (chain : Chain) :
    (∀ (b : IOBuffer) (h : HandshakeInitConversationTopic) (e : String),
      (RawMessage.try_consume_message b chain).1 = .error e →
      ∀ fuel, inner_loop chain fuel b h = .spinning) ∧
    (∀ (b : IOBuffer) (h : HandshakeInitConversationTopic) (fuel : Nat),
      (RawMessage.try_consume_message b chain).1 = .ok .SkippedMessage →
      inner_loop chain (fuel + 1) b h =
        inner_loop chain fuel (RawMessage.try_consume_message b chain).2 h) := by
  constructor
  · intro b h e he fuel
    have hunch := C4_error_leaves_buffer_unchanged b chain e he
    have hpair : RawMessage.try_consume_message b chain = (.error e, b) := by
      rcases hp : RawMessage.try_consume_message b chain with ⟨x, y⟩
      rw [hp] at he hunch
      simp only at he hunch
      rw [he, hunch]
    induction fuel with
    | zero => rfl
    | succ n ih =>
      show inner_loop chain (n + 1) b h = .spinning
      rw [inner_loop, hpair]
      exact ih
  · intro b h fuel hsk
    have hpair : RawMessage.try_consume_message b chain =
        (.ok .SkippedMessage, (RawMessage.try_consume_message b chain).2) := by
      rcases hp : RawMessage.try_consume_message b chain with ⟨x, y⟩
      rw [hp] at hsk
      simp only at hsk
      rw [hsk]
    rw [inner_loop, hpair]

set_option maxRecDepth 1000000 in
/-- Witness for C3's amended statement: a Testnet3 frame while Regtest is
expected makes `try_consume_message` error, and the inner loop spins
(absorbs) instead of failing. -/
theorem C3_decode_errors_absorbed_witness :
    (RawMessage.try_consume_message
        (IOBuffer.default.absorb (RawMessage.mk Chain.Testnet3 Command.Verack []).to_bytes)
        Chain.Regtest).1 =
      .error "expected network chain Regtest, but got a message from Testnet3" ∧
    inner_loop Chain.Regtest 3
      (IOBuffer.default.absorb (RawMessage.mk Chain.Testnet3 Command.Verack []).to_bytes)
      (HandshakeInitConversationTopic.new me0 addr0) = .spinning :=
  ⟨by decide,
    (C3_decode_errors_absorbed Chain.Regtest).1
      (IOBuffer.default.absorb (RawMessage.mk Chain.Testnet3 Command.Verack []).to_bytes)
      (HandshakeInitConversationTopic.new me0 addr0)
      "expected network chain Regtest, but got a message from Testnet3"
      (by decide) 3⟩

set_option maxRecDepth 1000000 in
/-- Counterexample to C3 as stated: a chain-mismatch frame does not make
`proceed_conversation` return the decode error — the driver absorbs it and
spins (model result `.stuck`), never `.failed` with that error. -/
theorem C3_counterexample_chain_mismatch_not_propagated :
    proceed_conversation Chain.Regtest 3 0
      [(RawMessage.mk Chain.Testnet3 Command.Verack []).to_bytes]
      (HandshakeInitConversationTopic.new me0 addr0) = .stuck ∧
    proceed_conversation Chain.Regtest 3 0
      [(RawMessage.mk Chain.Testnet3 Command.Verack []).to_bytes]
      (HandshakeInitConversationTopic.new me0 addr0) ≠
      .failed "expected network chain Regtest, but got a message from Testnet3" :=
  ⟨by decide, by decide⟩

set_option maxRecDepth 1000000 in
/-- C9. A zero-byte read (remote closed) makes `proceed_conversation` return
the "Remote node hung up" error: (1) in general, whenever the next scripted
read is empty the outer loop fails with exactly that error (so
`handler.outcome()` — reachable only through `.outcomeInvoked` — is never
invoked); (2) concretely for a peer that sends only a Version and then
closes. -/
theorem C9_eof_before_finished_fails :
    (∀ (chain : Chain) (fuel : Nat) (rest : List (List Nat))
        (h : HandshakeInitConversationTopic),
      outer_loop chain fuel ([] :: rest) h = .failed "Remote node hung up") ∧
    proceed_conversation Chain.Regtest 4 0
      [(RawMessage.mk Chain.Regtest Command.Version version_payload0).to_bytes, []]
      (HandshakeInitConversationTopic.new me0 addr0) =
      .failed "Remote node hung up" := by
  constructor
  · intro chain fuel rest h
    rfl
  · decide

theorem ByteBufferParser.read_i32_le_eq (pre rest : List Nat) (n : Nat)
    (h : n < 2 ^ 32) :
    (ByteBufferParser.mk (pre ++ (natToLe 4 n ++ rest)) pre.length).read_i32_le =
      .ok (intOfNat 4 n, ⟨pre ++ (natToLe 4 n ++ rest), pre.length + 4⟩) := by
  have h4 : (natToLe 4 n).length = 4 := natToLe_length 4 n
  have hr := ByteBufferParser.read_eq pre (natToLe 4 n) rest
  rw [h4] at hr
  simp only [ByteBufferParser.read_i32_le, hr, Bind.bind, Except.bind, pure,
    Except.pure, leToNat_natToLe_of_lt (w := 4) (by rw [pow_256_4]; exact h)]

theorem ByteBufferParser.read_i64_le_eq (pre rest : List Nat) (n : Nat)
    (h : n < 2 ^ 64) :
    (ByteBufferParser.mk (pre ++ (natToLe 8 n ++ rest)) pre.length).read_i64_le =
      .ok (intOfNat 8 n, ⟨pre ++ (natToLe 8 n ++ rest), pre.length + 8⟩) := by
  have h8 : (natToLe 8 n).length = 8 := natToLe_length 8 n
  have hr := ByteBufferParser.read_eq pre (natToLe 8 n) rest
  rw [h8] at hr
  simp only [ByteBufferParser.read_i64_le, hr, Bind.bind, Except.bind, pure,
    Except.pure, leToNat_natToLe_of_lt (w := 8) (by rw [pow_256_8]; exact h)]

theorem ByteBufferParser.read_u16_be_eq (pre pb rest : List Nat)
    (hpb : pb.length = 2) :
    (ByteBufferParser.mk (pre ++ (pb ++ rest)) pre.length).read_u16_be =
      .ok (beToNat pb, ⟨pre ++ (pb ++ rest), pre.length + 2⟩) := by
  have hr := ByteBufferParser.read_eq pre pb rest
  rw [hpb] at hr
  simp only [ByteBufferParser.read_u16_be, hr, Bind.bind, Except.bind, pure,
    Except.pure]

/-- Decoding a well-formed Version payload: protocol version, service mask,
timestamp and receiver address are read off the wire; the sender-address
block and nonce are skipped; everything after them (user agent, start
height, relay flag) is never read — `sub_ver` and `start_height` come out
as the hardcoded `""` and `1`. -/
theorem VersionMessage.from_raw_message_eq (chain : Chain) (cmd : Command)
    (pv mask tsw amask : Nat) (ip pb b26 n8 extra : List Nat)
    (hpv : pv < 2 ^ 32) (hmask : mask < 2 ^ 64) (htsw : tsw < 2 ^ 64)
    (hamask : amask < 2 ^ 64) (hip : ip.length = 16) (hpb : pb.length = 2)
    (hb26 : b26.length = 26) (hn8 : n8.length = 8) :
    VersionMessage.from_raw_message
      (RawMessage.mk chain cmd
        (natToLe 4 pv ++ (natToLe 8 mask ++ (natToLe 8 tsw ++ (natToLe 8 amask
          ++ (ip ++ (pb ++ (b26 ++ (n8 ++ extra))))))))) =
      .ok ⟨chain, intOfNat 4 pv, NodeServiceSet.from_bitmask mask, intOfNat 8 tsw,
        ⟨ip, beToNat pb⟩, "", 1⟩ := by
  set payload := natToLe 4 pv ++ (natToLe 8 mask ++ (natToLe 8 tsw ++ (natToLe 8 amask
    ++ (ip ++ (pb ++ (b26 ++ (n8 ++ extra))))))) with hpayload
  have h1 : (ByteBufferParser.mk payload 0).read_i32_le =
      .ok (intOfNat 4 pv, ⟨payload, 4⟩) := by
    have := ByteBufferParser.read_i32_le_eq []
      (natToLe 8 mask ++ (natToLe 8 tsw ++ (natToLe 8 amask
        ++ (ip ++ (pb ++ (b26 ++ (n8 ++ extra))))))) pv hpv
    simpa using this
  have h2 : (ByteBufferParser.mk payload 4).read_u64_le =
      .ok (mask, ⟨payload, 12⟩) := by
    have := ByteBufferParser.read_u64_le_eq (natToLe 4 pv)
      (natToLe 8 tsw ++ (natToLe 8 amask ++ (ip ++ (pb ++ (b26 ++ (n8 ++ extra))))))
      mask hmask
    simp only [natToLe_length] at this
    simpa [hpayload, List.append_assoc] using this
  have h3 : (ByteBufferParser.mk payload 12).read_i64_le =
      .ok (intOfNat 8 tsw, ⟨payload, 20⟩) := by
    have := ByteBufferParser.read_i64_le_eq (natToLe 4 pv ++ natToLe 8 mask)
      (natToLe 8 amask ++ (ip ++ (pb ++ (b26 ++ (n8 ++ extra))))) tsw htsw
    simp only [List.length_append, natToLe_length] at this
    simpa [hpayload, List.append_assoc] using this
  have h4 : (ByteBufferParser.mk payload 20).read_u64_le =
      .ok (amask, ⟨payload, 28⟩) := by
    have := ByteBufferParser.read_u64_le_eq
      (natToLe 4 pv ++ natToLe 8 mask ++ natToLe 8 tsw)
      (ip ++ (pb ++ (b26 ++ (n8 ++ extra)))) amask hamask
    simp only [List.length_append, natToLe_length] at this
    simpa [hpayload, List.append_assoc] using this
  have h5 : (ByteBufferParser.mk payload 28).read 16 =
      .ok (ip, ⟨payload, 44⟩) := by
    have := ByteBufferParser.read_eq
      (natToLe 4 pv ++ natToLe 8 mask ++ natToLe 8 tsw ++ natToLe 8 amask)
      ip (pb ++ (b26 ++ (n8 ++ extra)))
    simp only [List.length_append, natToLe_length, hip] at this
    simpa [hpayload, List.append_assoc] using this
  have h6 : (ByteBufferParser.mk payload 44).read_u16_be =
      .ok (beToNat pb, ⟨payload, 46⟩) := by
    have := ByteBufferParser.read_u16_be_eq
      (natToLe 4 pv ++ natToLe 8 mask ++ natToLe 8 tsw ++ natToLe 8 amask ++ ip)
      pb (b26 ++ (n8 ++ extra)) hpb
    simp only [List.length_append, natToLe_length, hip] at this
    simpa [hpayload, List.append_assoc] using this
  have h7 : (ByteBufferParser.mk payload 46).skip_bytes 26 =
      .ok ⟨payload, 72⟩ := by
    have := ByteBufferParser.skip_bytes_eq
      (natToLe 4 pv ++ natToLe 8 mask ++ natToLe 8 tsw ++ natToLe 8 amask ++ ip ++ pb)
      b26 (n8 ++ extra)
    simp only [List.length_append, natToLe_length, hip, hpb, hb26] at this
    simpa [hpayload, List.append_assoc] using this
  have h8 : (ByteBufferParser.mk payload 72).skip_bytes 8 =
      .ok ⟨payload, 80⟩ := by
    have := ByteBufferParser.skip_bytes_eq
      (natToLe 4 pv ++ natToLe 8 mask ++ natToLe 8 tsw ++ natToLe 8 amask ++ ip
        ++ pb ++ b26)
      n8 extra
    simp only [List.length_append, natToLe_length, hip, hpb, hb26, hn8] at this
    simpa [hpayload, List.append_assoc] using this
  have hna : (ByteBufferParser.mk payload 20).parse_net_addr =
      .ok ((NodeServiceSet.from_bitmask amask, SockAddr.mk ip (beToNat pb)),
        ⟨payload, 46⟩) := by
    simp only [ByteBufferParser.parse_net_addr, h4, h5, h6, Bind.bind,
      Except.bind, pure, Except.pure]
  simp only [VersionMessage.from_raw_message, ByteBufferParser.new, h1, h2, h3,
    hna, h7, h8, Bind.bind, Except.bind, pure, Except.pure]

set_option maxRecDepth 1000000 in
/-- Counterexample to C8 as stated: the peer's wire payload carries start
height 5, yet the handshake outcome reports start height 1 (the decoder
hardcodes `start_height = 1` instead of reading it), so the descriptor does
not carry the height "as it appeared in the received Version message's wire
payload". -/
theorem C8_counterexample_height_not_from_wire :
    proceed_conversation Chain.Regtest 4 0
      [(RawMessage.mk Chain.Regtest Command.Version c8_wire_payload).to_bytes,
        (RawMessage.mk Chain.Regtest Command.Verack []).to_bytes]
      (HandshakeInitConversationTopic.new me0 addr0) =
      .outcomeInvoked (.ok ⟨Chain.Regtest, 70016, ⟨[NodeService.NodeNetwork]⟩, "", 1⟩) ∧
    proceed_conversation Chain.Regtest 4 0
      [(RawMessage.mk Chain.Regtest Command.Version c8_wire_payload).to_bytes,
        (RawMessage.mk Chain.Regtest Command.Verack []).to_bytes]
      (HandshakeInitConversationTopic.new me0 addr0) ≠
      .outcomeInvoked (.ok ⟨Chain.Regtest, 70016, ⟨[NodeService.NodeNetwork]⟩, "", 5⟩) :=
  ⟨by decide, by decide⟩

/-- C8 (amended). A peer that sends a well-formed Version (arbitrary valid
wire fields) followed by a well-formed Acknowledgment makes the handshake
finish, and `outcome()` returns `Ok` with a descriptor carrying the locally
configured chain, the peer's protocol version and services as decoded from
the wire payload — but the hardcoded `sub_ver = ""` and `start_height = 1`
placeholders instead of the user agent and chain-tip height the peer put on
the wire (the decoder never reads those trailing fields). -/
theorem C8_amended_outcome_from_received_version
    (me : NodeDesc) (addr : SockAddr) (ts0 : Int) (fuel : Nat)
    (pv mask tsw amask : Nat) (ip pb b26 n8 extra : List Nat)
    (hpv : pv < 2 ^ 32) (hmask : mask < 2 ^ 64) (htsw : tsw < 2 ^ 64)
    (hamask : amask < 2 ^ 64) (hip : ip.length = 16) (hpb : pb.length = 2)
    (hb26 : b26.length = 26) (hn8 : n8.length = 8)
    (hextra : extra.length ≤ 920) :
    proceed_conversation me.chain (fuel + 2) ts0
      [(RawMessage.mk me.chain Command.Version
          (natToLe 4 pv ++ (natToLe 8 mask ++ (natToLe 8 tsw ++ (natToLe 8 amask
            ++ (ip ++ (pb ++ (b26 ++ (n8 ++ extra))))))))).to_bytes,
        (RawMessage.mk me.chain Command.Verack []).to_bytes]
      (HandshakeInitConversationTopic.new me addr) =
      .outcomeInvoked (.ok ⟨me.chain, intOfNat 4 pv,
        NodeServiceSet.from_bitmask mask, "", 1⟩) := by
  set payload := natToLe 4 pv ++ (natToLe 8 mask ++ (natToLe 8 tsw ++ (natToLe 8 amask
    ++ (ip ++ (pb ++ (b26 ++ (n8 ++ extra))))))) with hpayload
  set vframe := RawMessage.mk me.chain Command.Version payload with hvframe
  set aframe := RawMessage.mk me.chain Command.Verack [] with haframe
  set vm : VersionMessage := ⟨me.chain, intOfNat 4 pv,
    NodeServiceSet.from_bitmask mask, intOfNat 8 tsw, ⟨ip, beToNat pb⟩, "", 1⟩
    with hvm
  set h1 : HandshakeInitConversationTopic :=
    ⟨me, addr, true, false, none⟩ with hh1
  set h2 : HandshakeInitConversationTopic :=
    ⟨me, addr, true, false, some vm⟩ with hh2
  set h3 : HandshakeInitConversationTopic :=
    ⟨me, addr, true, true, some vm⟩ with hh3
  have hplen : payload.length = 80 + extra.length := by
    simp [hpayload, List.length_append, natToLe_length, hip, hpb, hb26, hn8]
    omega
  have hfitv : vframe.to_bytes.length ≤ 1024 := by
    rw [RawMessage.to_bytes_length]
    simp only [hvframe]
    omega
  have hfita : aframe.to_bytes.length ≤ 1024 := by
    rw [RawMessage.to_bytes_length]
    simp [haframe]
  have hc1 : RawMessage.try_consume_message
      (IOBuffer.default.absorb vframe.to_bytes) me.chain =
      (.ok (.Message vframe),
        (IOBuffer.default.absorb vframe.to_bytes).shift_left
          (24 + vframe.payload.length)) :=
    (RawMessage.consume_exact_frame vframe hfitv).1
  have hc1content : ((IOBuffer.default.absorb vframe.to_bytes).shift_left
      (24 + vframe.payload.length)).content = [] :=
    (RawMessage.consume_exact_frame vframe hfitv).2.1
  have hc2 : RawMessage.try_consume_message
      (IOBuffer.default.absorb aframe.to_bytes) me.chain =
      (.ok (.Message aframe),
        (IOBuffer.default.absorb aframe.to_bytes).shift_left
          (24 + aframe.payload.length)) :=
    (RawMessage.consume_exact_frame aframe hfita).1
  have hvb0 : vframe.to_bytes.length ≠ 0 := by
    rw [RawMessage.to_bytes_length]
    omega
  have hab0 : aframe.to_bytes.length ≠ 0 := by
    rw [RawMessage.to_bytes_length]
    simp [haframe]
  have hfrm : VersionMessage.from_raw_message vframe = .ok vm := by
    rw [hvframe, hpayload, hvm]
    exact VersionMessage.from_raw_message_eq me.chain Command.Version pv mask tsw
      amask ip pb b26 n8 extra hpv hmask htsw hamask hip hpb hb26 hn8
  have hpm1 : vframe.to_protocol_message = .ok (.Version vm) := by
    have hstep : vframe.to_protocol_message
        = (VersionMessage.from_raw_message vframe).map ProtocolMessage.Version := rfl
    rw [hstep, hfrm]
    rfl
  have hpm2 : aframe.to_protocol_message = .ok (.Verack me.chain) := rfl
  have hon1 : h1.on_message (.Version vm) =
      (.ok ⟨some (.Verack me.chain), false⟩, h2) := rfl
  have hon2 : h2.on_message (.Verack me.chain) = (.ok ⟨none, true⟩, h3) := rfl
  have hshort : ((IOBuffer.default.absorb vframe.to_bytes).shift_left
      (24 + vframe.payload.length)).content.length < 24 := by
    rw [hc1content]
    decide
  have hnomsg := RawMessage.try_consume_message_short
    ((IOBuffer.default.absorb vframe.to_bytes).shift_left
      (24 + vframe.payload.length)) me.chain hshort
  have hinner1 : inner_loop me.chain (fuel + 1 + 1)
      (IOBuffer.default.absorb vframe.to_bytes) h1 =
      .needMore ((IOBuffer.default.absorb vframe.to_bytes).shift_left
        (24 + vframe.payload.length)) h2 := by
    rw [inner_loop]
    simp only [hc1, hpm1, hon1]
    rw [inner_loop]
    simp only [hnomsg]
    simp
  have hinner2 : inner_loop me.chain (fuel + 1 + 1)
      (IOBuffer.default.absorb aframe.to_bytes) h2 = .finishedTopic h3 := by
    rw [inner_loop]
    simp only [hc2, hpm2, hon2]
    simp
  have houtcome : h3.outcome = .ok ⟨me.chain, intOfNat 4 pv,
      NodeServiceSet.from_bitmask mask, "", 1⟩ := rfl
  show proceed_conversation me.chain (fuel + 1 + 1) ts0
      [vframe.to_bytes, aframe.to_bytes] (HandshakeInitConversationTopic.new me addr)
      = _
  simp only [proceed_conversation]
  rw [show (HandshakeInitConversationTopic.new me addr).initial_action ts0
      = (⟨some (.Version (VersionMessage.new addr me ts0)), false⟩, h1) from rfl]
  dsimp only
  rw [if_neg (by simp)]
  rw [outer_loop, if_neg hvb0]
  dsimp only
  rw [hinner1]
  dsimp only
  rw [outer_loop, if_neg hab0]
  dsimp only
  rw [hinner2]
  dsimp only
  rw [houtcome]

set_option maxRecDepth 1000000 in
/-- Witness for C8's amended statement at concrete wire fields (version
70016, services mask 1, receiver `addr0`, start height 5 on the wire). -/
theorem C8_amended_outcome_from_received_version_witness :
    ((70016 : Nat) < 2 ^ 32 ∧ (1 : Nat) < 2 ^ 64 ∧ (0 : Nat) < 2 ^ 64 ∧
      (1 : Nat) < 2 ^ 64 ∧ (List.replicate 16 (0 : Nat)).length = 16 ∧
      (natToBe 2 18334).length = 2 ∧ (List.replicate 26 (0 : Nat)).length = 26 ∧
      (List.replicate 8 (0 : Nat)).length = 8 ∧
      ([0] ++ (intToLe 4 5 ++ [0]) : List Nat).length ≤ 920) ∧
    proceed_conversation me0.chain (0 + 2) 0
      [(RawMessage.mk me0.chain Command.Version
          (natToLe 4 70016 ++ (natToLe 8 1 ++ (natToLe 8 0 ++ (natToLe 8 1
            ++ (List.replicate 16 0 ++ (natToBe 2 18334 ++ (List.replicate 26 0
            ++ (List.replicate 8 0 ++ ([0] ++ (intToLe 4 5 ++ [0]))))))))))).to_bytes,
        (RawMessage.mk me0.chain Command.Verack []).to_bytes]
      (HandshakeInitConversationTopic.new me0 addr0) =
      .outcomeInvoked (.ok ⟨me0.chain, intOfNat 4 70016,
        NodeServiceSet.from_bitmask 1, "", 1⟩) :=
  ⟨⟨by decide, by decide, by decide, by decide, by decide, by decide, by decide,
      by decide, by decide⟩,
    C8_amended_outcome_from_received_version me0 addr0 0 0 70016 1 0 1
      (List.replicate 16 0) (natToBe 2 18334) (List.replicate 26 0)
      (List.replicate 8 0) ([0] ++ (intToLe 4 5 ++ [0]))
      (by decide) (by decide) (by decide) (by decide) (by decide) (by decide)
      (by decide) (by decide) (by decide)⟩
